import Mathlib

/-!
Verification of the pedal communication subsystem of the `clock` repository.

The definitions in this file are shallow embeddings, translated from the
TypeScript sources:
  * `src/lib/pedal/constants.ts` — protocol constants;
  * `src/lib/pedal/protocol.ts`  — the packet codec
    (`buildPayloadChunks`, `encodeWord`, `decodeWord`, `sanitizeSysex`,
    `tryUnpackPayload`, `decodePedalMessage`);
  * `src/lib/pedal/bridge.ts`    — the transport bridge (pending-request
    state, `sendJsonCommand` timeout computation, `handleDecodedMessage`);
  * `src/lib/pedal/importer.ts`  — the slot scanner and the partial
    compression engine (`replaceWithPartials`, `stepsEqual`);
  * `src/lib/pedal/exporter.ts`  — the exporter (`expandMacroSteps`,
    `exportMacroToDevice`, `encodeMidiStepForDevice`).

Machine integers are modelled as `Nat`/`Int` with explicit masks where the
source uses bitwise operators.  JavaScript strings are modelled as Lean
`String` where the content matters and as byte lists (`List Nat`) where the
source manipulates raw `Uint8Array` data.  `JSON.parse` is modelled as an
abstract parameter `parseJson : List Nat → Option J`.  Asynchronous
methods returning promises are modelled as pure functions returning the
list of issued commands / the produced effect.
-/

namespace Clock

/-! ## Constants (`src/lib/pedal/constants.ts`) -/

def MIDI_PACKET_HEADER : List Nat := [0xde, 0xad]

def MIDI_PACKET_JSON_TYPE : Nat := 0x02

def MIDI_PACKET_MAX_PAYLOAD : Nat := 0x100

/-- `HEADER_LENGTH = MIDI_PACKET_HEADER.length + 2` (header bytes + length + type). -/
def HEADER_LENGTH : Nat := MIDI_PACKET_HEADER.length + 2

def SONG_SLOT_COUNT : Nat := 128

def SETLIST_SLOT_COUNT : Nat := 10

def MACRO_SLOT_COUNT : Nat := 128

def MAX_SETLIST_SONGS : Nat := 128

def SETLIST_SECTION_SIZE : Nat := 32

def SETLIST_SECTION_COUNT : Nat := (MAX_SETLIST_SONGS + SETLIST_SECTION_SIZE - 1) / SETLIST_SECTION_SIZE

-- `PedalResponseType` enumeration values.
namespace PedalResponseType

def MICRO_FIRMWARE : Nat := 1
def DSP_FIRMWARE : Nat := 2
def PRINTF : Nat := 4
def ACK : Nat := 5
def NACK : Nat := 6
def JSON : Nat := 100
def ACK_V2 : Nat := 200
def NACK_V2 : Nat := 201

end PedalResponseType

/-! ## Packet codec (`src/lib/pedal/protocol.ts`) -/

/-- `encodeWord` on an already padded 4-byte group: each byte is masked to
7 bits and a trailing header byte records (as bit `i`, i.e. `1 << i`)
whether byte `i` had its high bit `0x80` set.  The source pads its 1–4 byte
input to 4 bytes with zeros before this computation; the callers below pass
the zero padding explicitly. -/
def encodeWord4 (b0 b1 b2 b3 : Nat) : List Nat :=
  [b0 &&& 0x7f, b1 &&& 0x7f, b2 &&& 0x7f, b3 &&& 0x7f,
    (if b0 &&& 0x80 ≠ 0 then 1 else 0) |||
    (if b1 &&& 0x80 ≠ 0 then 2 else 0) |||
    (if b2 &&& 0x80 ≠ 0 then 4 else 0) |||
    (if b3 &&& 0x80 ≠ 0 then 8 else 0)]

/-- `decodeWord`: a chunk of any length other than 5 yields `[]`; otherwise
each of the first 4 bytes is restored by OR-ing the high bit back in when
the corresponding bit (`1 << i`) of the trailing header byte is set, and
masked to 7 bits otherwise. -/
def decodeWord (chunk : List Nat) : List Nat :=
  match chunk with
  | [v0, v1, v2, v3, header] =>
    [if header &&& 1 ≠ 0 then v0 ||| 0x80 else v0 &&& 0x7f,
     if header &&& 2 ≠ 0 then v1 ||| 0x80 else v1 &&& 0x7f,
     if header &&& 4 ≠ 0 then v2 ||| 0x80 else v2 &&& 0x7f,
     if header &&& 8 ≠ 0 then v3 ||| 0x80 else v3 &&& 0x7f]
  | _ => []

/-- The chunking loop of `buildPayloadChunks`: the buffer is consumed four
bytes at a time, each group encoded with `encodeWord`; a final short group
(which does not occur for the padded buffer) is padded with zeros by
`encodeWord`. -/
def packWords : List Nat → List (List Nat)
  | [] => []
  | [a] => [encodeWord4 a 0 0 0]
  | [a, b] => [encodeWord4 a b 0 0]
  | [a, b, c] => [encodeWord4 a b c 0]
  | a :: b :: c :: d :: rest => encodeWord4 a b c d :: packWords rest

/-- The `while (buffer.length % 4 !== 0) buffer.push(0)` padding loop. -/
def padTo4 (l : List Nat) : List Nat :=
  l ++ List.replicate ((4 - l.length % 4) % 4) 0

/-- `buildPayloadChunks(payload, type)`: throws when the payload exceeds
`MIDI_PACKET_MAX_PAYLOAD`; otherwise builds
`header ++ [lengthByte, type & 0xff] ++ payload`, zero-pads it to a
multiple of 4 and packs it into 5-byte words. -/
def buildPayloadChunks (payload : List Nat) (type : Nat) :
    Except String (List (List Nat)) :=
  if payload.length > MIDI_PACKET_MAX_PAYLOAD then
    .error ("Packet length too large (" ++ toString payload.length ++
      "). Maximum is " ++ toString MIDI_PACKET_MAX_PAYLOAD ++ ".")
  else
    let buffer := MIDI_PACKET_HEADER ++
      [if payload.length ≠ 0 then payload.length - 1 else 0, type &&& 0xff] ++
      payload
    .ok (packWords (padTo4 buffer))

/-- `startsWithHeader`: the byte list is at least as long as the header and
matches it element-wise. -/
def startsWithHeader (bytes : List Nat) : Bool :=
  decide (MIDI_PACKET_HEADER.length ≤ bytes.length) &&
    (List.zipWith (fun a b => a == b) MIDI_PACKET_HEADER bytes).all id

/-- `sanitizeSysex`: drop a leading `0xf0`, a trailing `0xf7`, and any
leading zero bytes. -/
def sanitizeSysex (buffer : List Nat) : List Nat :=
  let c1 := if buffer.head? = some 0xf0 then buffer.tail else buffer
  let c2 := if c1.getLast? = some 0xf7 then c1.dropLast else c1
  c2.dropWhile (fun b => b == 0)

/-- The trailing-zero stripping loop
(`while (words.length && words[words.length-1] === 0) words.pop()`). -/
def rstrip0 (l : List Nat) : List Nat :=
  (l.reverse.dropWhile (fun b => b == 0)).reverse

/-- The word-decoding loop of `tryUnpackPayload`: consume the buffer five
bytes at a time; a leftover short chunk makes `decodeWord` return `[]`,
which aborts with `none`. -/
def unpackWords : List Nat → Option (List Nat)
  | [] => some []
  | a :: b :: c :: d :: e :: rest =>
    let decoded := decodeWord [a, b, c, d, e]
    if decoded = [] then none
    else (unpackWords rest).map (fun ws => decoded ++ ws)
  | _ => none

/-- `tryUnpackPayload`: requires a length that is a multiple of 5, decodes
every 5-byte word, requires the decoded bytes to start with the packet
header, and strips trailing zero padding. -/
def tryUnpackPayload (buffer : List Nat) : Option (List Nat) :=
  if buffer.length % 5 ≠ 0 then none
  else
    match unpackWords buffer with
    | none => none
    | some words =>
      if startsWithHeader words then some (rstrip0 words) else none

/-- The frame-extraction stage of `decodePedalMessage` (everything before
the `switch` on the message type): sanitize, attempt 5-byte-word unpacking
when the raw form lacks the header, then split into message type and
payload, dropping a single trailing zero byte from the payload. -/
def decodeFrame (rawData : List Nat) : Option (Nat × List Nat) :=
  let s0 := sanitizeSysex rawData
  let s := if startsWithHeader s0 then s0 else (tryUnpackPayload s0).getD s0
  if s.length < 1 then none
  else
    let hdr := startsWithHeader s && decide (HEADER_LENGTH ≤ s.length)
    let messageType := if hdr then s.getD (HEADER_LENGTH - 1) 0 else s.getD 0 0
    let payloadStart := if hdr then HEADER_LENGTH else 1
    let payload := s.drop payloadStart
    let payload := if payload.getLast? = some 0 then payload.dropLast else payload
    some (messageType, payload)

inductive FirmwareDomain where
  | micro
  | dsp
deriving DecidableEq

/-- `PedalDecodedMessage`, parametric in the type `J` of parsed JSON
values.  Text payloads (`printf`) are kept as their raw bytes; the decoder
applies UTF-8 decoding which is the identity on the byte content for the
purposes modelled here. -/
inductive PedalDecodedMessage (J : Type) where
  | ack
  | nack (code : Nat)
  | firmware (domain : FirmwareDomain) (version : String)
  | json (payload : J)
  | printf (message : List Nat)
  | raw (payload : List Nat)
deriving DecidableEq

/-- JavaScript `String.prototype.trim` whitespace, restricted to the ASCII
whitespace bytes that can appear in a UTF-8 decoded byte. -/
def isJsWsB (b : Nat) : Bool :=
  b == 9 || b == 10 || b == 11 || b == 12 || b == 13 || b == 32

/-- `.trim()` on the byte-level model of the decoded text. -/
def jsTrimBytes (l : List Nat) : List Nat :=
  ((l.dropWhile isJsWsB).reverse.dropWhile isJsWsB).reverse

/-- `decodePedalMessage`: frame extraction followed by the `switch` on the
message type.  `JSON.parse` on the decoded text is the abstract parameter
`parseJson`; the `split("\0")[0]` truncation at the first NUL is
`takeWhile (· != 0)` on the bytes.  The `default` branch first retries the
payload as JSON when it trims to brace-wrapped text (byte `123` = left
brace, byte `125` = right brace), else yields the raw message. -/
def decodePedalMessage {J : Type} (parseJson : List Nat → Option J)
    (rawData : List Nat) : Option (PedalDecodedMessage J) :=
  match decodeFrame rawData with
  | none => none
  | some (messageType, payload) =>
    if messageType = PedalResponseType.ACK ∨ messageType = PedalResponseType.ACK_V2 then
      some .ack
    else if messageType = PedalResponseType.NACK ∨ messageType = PedalResponseType.NACK_V2 then
      some (.nack (payload.headD 0))
    else if (messageType = PedalResponseType.MICRO_FIRMWARE ∨
             messageType = PedalResponseType.DSP_FIRMWARE) ∧ 2 ≤ payload.length then
      some (.firmware
        (if messageType = PedalResponseType.MICRO_FIRMWARE then .micro else .dsp)
        (toString (payload.getD 0 0) ++ "." ++ toString (payload.getD 1 0)))
    else if messageType = PedalResponseType.PRINTF then
      some (.printf payload)
    else if messageType = PedalResponseType.JSON then
      let jsonText := payload.takeWhile (fun b => b != 0)
      if jsonText = [] then none
      else
        match parseJson jsonText with
        | some v => some (.json v)
        | none => none
    else
      let fallbackText := jsTrimBytes payload
      if fallbackText.head? = some 123 ∧ fallbackText.getLast? = some 125 then
        match parseJson fallbackText with
        | some v => some (.json v)
        | none => some (.raw payload)
      else some (.raw payload)

/-- The concatenated SysEx bytes produced by encoding `payload` with
`type` — what the receiving side observes on the wire. -/
def encodedSysexBytes (payload : List Nat) (type : Nat) : List Nat :=
  match buildPayloadChunks payload type with
  | .ok chunks => chunks.flatten
  | .error _ => []

/-- A JSON parser that never succeeds; used to instantiate the abstract
`parseJson` parameter in concrete computations that avoid JSON branches. -/
def noJsonParse : List Nat → Option Unit := fun _ => none

/-! ## Codec lemmas -/

set_option maxRecDepth 8192 in
/-- Per-byte facts about the 7-bit mask and high-bit flag, for bytes. -/
theorem byte_mask_facts : ∀ b < 256, ((b &&& 128 = 0 → (b &&& 127) &&& 127 = b) ∧
    (¬(b &&& 128 = 0) → (b &&& 127) ||| 128 = b) ∧ (b &&& 127 < 128) ∧ (b &&& 255 = b)) := by
  decide

/-- Decoding inverts encoding on a single 4-byte group of bytes. -/
theorem decodeWord_encodeWord4 (b0 b1 b2 b3 : Nat)
    (h0 : b0 < 256) (h1 : b1 < 256) (h2 : b2 < 256) (h3 : b3 < 256) :
    decodeWord (encodeWord4 b0 b1 b2 b3) = [b0, b1, b2, b3] := by
  obtain ⟨l0, r0, -, -⟩ := byte_mask_facts b0 h0
  obtain ⟨l1, r1, -, -⟩ := byte_mask_facts b1 h1
  obtain ⟨l2, r2, -, -⟩ := byte_mask_facts b2 h2
  obtain ⟨l3, r3, -, -⟩ := byte_mask_facts b3 h3
  by_cases c0 : b0 &&& 128 = 0 <;> by_cases c1 : b1 &&& 128 = 0 <;>
    by_cases c2 : b2 &&& 128 = 0 <;> by_cases c3 : b3 &&& 128 = 0 <;>
    simp only [encodeWord4, decodeWord, c0, c1, c2, c3, ne_eq, not_true, not_false_iff,
      ite_true, ite_false, if_true, if_false, not_true_eq_false, not_false_eq_true] <;>
    simp_all [show ((0 : Nat) &&& 1) = 0 from by decide,
      show ((0 : Nat) &&& 2) = 0 from by decide,
      show ((0 : Nat) &&& 4) = 0 from by decide,
      show ((0 : Nat) &&& 8) = 0 from by decide,
      show ((1 : Nat) &&& 1) = 1 from by decide,
      show ((1 : Nat) &&& 2) = 0 from by decide,
      show ((1 : Nat) &&& 4) = 0 from by decide,
      show ((1 : Nat) &&& 8) = 0 from by decide,
      show ((2 : Nat) &&& 1) = 0 from by decide,
      show ((2 : Nat) &&& 2) = 2 from by decide,
      show ((2 : Nat) &&& 4) = 0 from by decide,
      show ((2 : Nat) &&& 8) = 0 from by decide,
      show ((3 : Nat) &&& 1) = 1 from by decide,
      show ((3 : Nat) &&& 2) = 2 from by decide,
      show ((3 : Nat) &&& 4) = 0 from by decide,
      show ((3 : Nat) &&& 8) = 0 from by decide,
      show ((4 : Nat) &&& 1) = 0 from by decide,
      show ((4 : Nat) &&& 2) = 0 from by decide,
      show ((4 : Nat) &&& 4) = 4 from by decide,
      show ((4 : Nat) &&& 8) = 0 from by decide,
      show ((5 : Nat) &&& 1) = 1 from by decide,
      show ((5 : Nat) &&& 2) = 0 from by decide,
      show ((5 : Nat) &&& 4) = 4 from by decide,
      show ((5 : Nat) &&& 8) = 0 from by decide,
      show ((6 : Nat) &&& 1) = 0 from by decide,
      show ((6 : Nat) &&& 2) = 2 from by decide,
      show ((6 : Nat) &&& 4) = 4 from by decide,
      show ((6 : Nat) &&& 8) = 0 from by decide,
      show ((7 : Nat) &&& 1) = 1 from by decide,
      show ((7 : Nat) &&& 2) = 2 from by decide,
      show ((7 : Nat) &&& 4) = 4 from by decide,
      show ((7 : Nat) &&& 8) = 0 from by decide,
      show ((8 : Nat) &&& 1) = 0 from by decide,
      show ((8 : Nat) &&& 2) = 0 from by decide,
      show ((8 : Nat) &&& 4) = 0 from by decide,
      show ((8 : Nat) &&& 8) = 8 from by decide,
      show ((9 : Nat) &&& 1) = 1 from by decide,
      show ((9 : Nat) &&& 2) = 0 from by decide,
      show ((9 : Nat) &&& 4) = 0 from by decide,
      show ((9 : Nat) &&& 8) = 8 from by decide,
      show ((10 : Nat) &&& 1) = 0 from by decide,
      show ((10 : Nat) &&& 2) = 2 from by decide,
      show ((10 : Nat) &&& 4) = 0 from by decide,
      show ((10 : Nat) &&& 8) = 8 from by decide,
      show ((11 : Nat) &&& 1) = 1 from by decide,
      show ((11 : Nat) &&& 2) = 2 from by decide,
      show ((11 : Nat) &&& 4) = 0 from by decide,
      show ((11 : Nat) &&& 8) = 8 from by decide,
      show ((12 : Nat) &&& 1) = 0 from by decide,
      show ((12 : Nat) &&& 2) = 0 from by decide,
      show ((12 : Nat) &&& 4) = 4 from by decide,
      show ((12 : Nat) &&& 8) = 8 from by decide,
      show ((13 : Nat) &&& 1) = 1 from by decide,
      show ((13 : Nat) &&& 2) = 0 from by decide,
      show ((13 : Nat) &&& 4) = 4 from by decide,
      show ((13 : Nat) &&& 8) = 8 from by decide,
      show ((14 : Nat) &&& 1) = 0 from by decide,
      show ((14 : Nat) &&& 2) = 2 from by decide,
      show ((14 : Nat) &&& 4) = 4 from by decide,
      show ((14 : Nat) &&& 8) = 8 from by decide,
      show ((15 : Nat) &&& 1) = 1 from by decide,
      show ((15 : Nat) &&& 2) = 2 from by decide,
      show ((15 : Nat) &&& 4) = 4 from by decide,
      show ((15 : Nat) &&& 8) = 8 from by decide]

/-- Every byte of an encoded word is 7-bit clean (the trailing header byte
uses only the low 4 bits). -/
theorem encodeWord4_mem_lt (b0 b1 b2 b3 : Nat) :
    ∀ x ∈ encodeWord4 b0 b1 b2 b3, x < 128 := by
  intro x hx
  simp only [encodeWord4, List.mem_cons, List.not_mem_nil, or_false] at hx
  rcases hx with h | h | h | h | h
  · exact h ▸ Nat.lt_of_le_of_lt (Nat.and_le_right) (by norm_num)
  · exact h ▸ Nat.lt_of_le_of_lt (Nat.and_le_right) (by norm_num)
  · exact h ▸ Nat.lt_of_le_of_lt (Nat.and_le_right) (by norm_num)
  · exact h ▸ Nat.lt_of_le_of_lt (Nat.and_le_right) (by norm_num)
  · subst h; split_ifs <;> decide

theorem encodeWord4_length (b0 b1 b2 b3 : Nat) : (encodeWord4 b0 b1 b2 b3).length = 5 := rfl

/-- `decodeWord` on a 5-byte chunk never yields `[]`. -/
theorem decodeWord5_ne_nil (a b c d e : Nat) : decodeWord [a, b, c, d, e] ≠ [] := by
  simp [decodeWord]

/-- Unpacking inverts packing on a buffer of bytes whose length is a
multiple of 4. -/
theorem unpackWords_packWords (l : List Nat) (hlen : l.length % 4 = 0)
    (hb : ∀ b ∈ l, b < 256) : unpackWords ((packWords l).flatten) = some l := by
  induction l using packWords.induct with
  | case1 => simp [packWords, unpackWords]
  | case2 a => simp at hlen
  | case3 a b => simp at hlen
  | case4 a b c => simp at hlen
  | case5 a b c d rest ih =>
    obtain ⟨x0, x1, x2, x3, x4, hx⟩ :
        ∃ x0 x1 x2 x3 x4, encodeWord4 a b c d = [x0, x1, x2, x3, x4] :=
      ⟨_, _, _, _, _, rfl⟩
    have hrt : decodeWord [x0, x1, x2, x3, x4] = [a, b, c, d] := by
      rw [← hx]
      exact decodeWord_encodeWord4 a b c d
        (hb a (by simp)) (hb b (by simp)) (hb c (by simp)) (hb d (by simp))
    have hrest : unpackWords ((packWords rest).flatten) = some rest := by
      refine ih ?_ ?_
      · simp only [List.length_cons] at hlen; omega
      · intro x hxm; exact hb x (by simp [hxm])
    simp only [packWords, List.flatten_cons, hx, List.cons_append, List.nil_append]
    rw [unpackWords]
    simp [hrt, hrest]

/-- Every byte of the packed wire form is 7-bit clean. -/
theorem packWords_flatten_lt (l : List Nat) : ∀ x ∈ (packWords l).flatten, x < 128 := by
  induction l using packWords.induct with
  | case1 => simp [packWords]
  | case2 a => simpa [packWords] using encodeWord4_mem_lt a 0 0 0
  | case3 a b => simpa [packWords] using encodeWord4_mem_lt a b 0 0
  | case4 a b c => simpa [packWords] using encodeWord4_mem_lt a b c 0
  | case5 a b c d rest ih =>
    intro x hxm
    simp only [packWords, List.flatten_cons, List.mem_append] at hxm
    rcases hxm with h | h
    · exact encodeWord4_mem_lt a b c d x h
    · exact ih x h

/-- The packed wire form of a 4-aligned buffer has a length that is a
multiple of 5. -/
theorem packWords_flatten_length (l : List Nat) (h : l.length % 4 = 0) :
    (packWords l).flatten.length % 5 = 0 := by
  induction l using packWords.induct with
  | case1 => simp [packWords]
  | case2 a => simp at h
  | case3 a b => simp at h
  | case4 a b c => simp at h
  | case5 a b c d rest ih =>
    have h4 : rest.length % 4 = 0 := by simp only [List.length_cons] at h; omega
    simp only [packWords, List.flatten_cons, List.length_append, encodeWord4_length]
    have := ih h4
    omega

/-- The first wire byte is the first buffer byte masked to 7 bits. -/
theorem packWords_flatten_head (a : Nat) (rest : List Nat) :
    ((packWords (a :: rest)).flatten).head? = some (a &&& 127) := by
  rcases rest with - | ⟨b, - | ⟨c, - | ⟨d, t⟩⟩⟩ <;> simp [packWords, encodeWord4]

/-- `sanitizeSysex` leaves a buffer unchanged when it neither begins with
the SysEx start byte, nor begins with zero, nor ends with the SysEx end
byte (here implied by 7-bit-clean content). -/
theorem sanitizeSysex_eq_self (l : List Nat) (h1 : l.head? ≠ some 0xf0)
    (h2 : ∀ x ∈ l, x < 128) (h3 : l.head? ≠ some 0) :
    sanitizeSysex l = l := by
  have hlast : l.getLast? ≠ some 0xf7 := by
    intro hc
    have := h2 _ (List.mem_of_mem_getLast? hc)
    omega
  simp only [sanitizeSysex, if_neg h1, if_neg hlast]
  cases l with
  | nil => rfl
  | cons a t =>
    have ha : (a == 0) = false := by
      simp only [List.head?_cons, ne_eq, Option.some.injEq] at h3
      simp [h3]
    simp [List.dropWhile_cons, ha]

theorem startsWithHeader_cons2 (rest : List Nat) :
    startsWithHeader (0xde :: 0xad :: rest) = true := by
  simp [startsWithHeader, MIDI_PACKET_HEADER]

/-- A 7-bit-clean byte sequence never starts with the `0xde 0xad` header. -/
theorem startsWithHeader_of_lt (l : List Nat) (h : ∀ x ∈ l, x < 128) :
    startsWithHeader l = false := by
  cases l with
  | nil => rfl
  | cons a t =>
    have ha : a < 128 := h a (by simp)
    have : (0xde == a) = false := by
      have : (0xde : Nat) ≠ a := by omega
      simp [this]
    simp [startsWithHeader, MIDI_PACKET_HEADER, this]

theorem rstrip0_append (l1 l2 : List Nat) :
    rstrip0 (l1 ++ l2) = if rstrip0 l2 = [] then rstrip0 l1 else l1 ++ rstrip0 l2 := by
  unfold rstrip0
  rw [List.reverse_append, List.dropWhile_append]
  by_cases hc : l2.reverse.dropWhile (fun b => b == 0) = []
  · simp [hc]
  · simp [hc, List.reverse_append]

theorem rstrip0_replicate_zero (n : Nat) : rstrip0 (List.replicate n 0) = [] := by
  simp [rstrip0, List.dropWhile_eq_nil_iff]

/-- Appending zero padding does not change the stripped form. -/
theorem rstrip0_append_replicate (l : List Nat) (n : Nat) :
    rstrip0 (l ++ List.replicate n 0) = rstrip0 l := by
  rw [rstrip0_append, rstrip0_replicate_zero, if_pos rfl]

theorem dropWhile_head_false {α : Type} (p : α → Bool) :
    ∀ (l : List α) (a : α) (t : List α), l.dropWhile p = a :: t → p a = false := by
  intro l
  induction l with
  | nil => intro a t h; simp at h
  | cons x xs ih =>
    intro a t h
    by_cases hx : p x
    · rw [List.dropWhile_cons_of_pos hx] at h
      exact ih a t h
    · rw [List.dropWhile_cons_of_neg hx] at h
      cases h
      simpa using hx

/-- The stripped form is empty or ends in a nonzero byte. -/
theorem rstrip0_getLast?_ne (l : List Nat) :
    rstrip0 l = [] ∨ (rstrip0 l).getLast? ≠ some 0 := by
  unfold rstrip0
  cases hd : l.reverse.dropWhile (fun b => b == 0) with
  | nil => left; simp
  | cons a t =>
    right
    have ha : (a == 0) = false := dropWhile_head_false _ _ a t hd
    simp only [List.reverse_cons]
    rw [List.getLast?_concat]
    intro hc
    simp_all

/-- A list containing a nonzero byte does not strip to `[]`. -/
theorem rstrip0_ne_nil (l : List Nat) (h : ∃ b ∈ l, b ≠ 0) : rstrip0 l ≠ [] := by
  obtain ⟨b, hb, hbne⟩ := h
  unfold rstrip0
  intro hc
  rw [List.reverse_eq_nil_iff, List.dropWhile_eq_nil_iff] at hc
  have := hc b (by simp [hb])
  simp_all

theorem padTo4_eq (l : List Nat) :
    padTo4 l = l ++ List.replicate ((4 - l.length % 4) % 4) 0 := rfl

theorem padTo4_length_mod (l : List Nat) : (padTo4 l).length % 4 = 0 := by
  simp only [padTo4, List.length_append, List.length_replicate]
  omega

/-- Core wire round-trip: decoding the frame of the packed form of a
`header ++ [len, type] ++ payload` buffer recovers the type byte and the
zero-stripped payload (provided the trailing-zero strip cannot reach the
type byte, i.e. the type byte is nonzero or the payload has a nonzero
byte). -/
theorem decodeFrame_wire (lenB t : Nat) (p : List Nat)
    (hlenB : lenB < 256) (ht : t < 256) (hp : ∀ b ∈ p, b < 256)
    (hnz : t ≠ 0 ∨ ∃ b ∈ p, b ≠ 0) :
    decodeFrame ((packWords (padTo4 (0xde :: 0xad :: lenB :: t :: p))).flatten) =
      some (t, rstrip0 p) := by
  have hBbytes : ∀ b ∈ padTo4 (0xde :: 0xad :: lenB :: t :: p), b < 256 := by
    intro b hb
    simp only [padTo4, List.mem_append, List.mem_cons, List.mem_replicate] at hb
    rcases hb with (h | h | h | h | h) | ⟨-, h⟩ <;> first | omega | exact hp b h
  have hBlen := padTo4_length_mod (0xde :: 0xad :: lenB :: t :: p)
  have hWlt := packWords_flatten_lt (padTo4 (0xde :: 0xad :: lenB :: t :: p))
  have hpad : padTo4 (0xde :: 0xad :: lenB :: t :: p) =
      0xde :: (0xad :: lenB :: t :: p ++
        List.replicate ((4 - (0xde :: 0xad :: lenB :: t :: p).length % 4) % 4) 0) := by
    simp [padTo4]
  have hWhead : ((packWords (padTo4 (0xde :: 0xad :: lenB :: t :: p))).flatten).head? =
      some 94 := by
    rw [hpad, packWords_flatten_head]
    decide
  have hsan : sanitizeSysex ((packWords (padTo4 (0xde :: 0xad :: lenB :: t :: p))).flatten) =
      (packWords (padTo4 (0xde :: 0xad :: lenB :: t :: p))).flatten := by
    refine sanitizeSysex_eq_self _ ?_ hWlt ?_ <;> rw [hWhead] <;> simp
  have hsw : startsWithHeader ((packWords (padTo4 (0xde :: 0xad :: lenB :: t :: p))).flatten) =
      false := startsWithHeader_of_lt _ hWlt
  have hunp : unpackWords ((packWords (padTo4 (0xde :: 0xad :: lenB :: t :: p))).flatten) =
      some (padTo4 (0xde :: 0xad :: lenB :: t :: p)) :=
    unpackWords_packWords _ hBlen hBbytes
  have hWlen5 := packWords_flatten_length _ hBlen
  have hstrip : rstrip0 (padTo4 (0xde :: 0xad :: lenB :: t :: p)) =
      0xde :: 0xad :: lenB :: t :: rstrip0 p := by
    rw [padTo4_eq, rstrip0_append_replicate]
    have hsplit : (0xde :: 0xad :: lenB :: t :: p : List Nat) =
        [0xde, 0xad, lenB, t] ++ p := by simp
    rw [hsplit, rstrip0_append]
    by_cases hq : rstrip0 p = []
    · rcases hnz with hne | hex
      · rw [if_pos hq]
        have hp0 : ∀ x ∈ p, x = 0 := by
          intro x hx
          by_contra hxx
          exact rstrip0_ne_nil p ⟨x, hx, hxx⟩ hq
        have ht0 : ((t : Nat) == 0) = false := by simp [hne]
        simp [rstrip0, ht0, hq, List.dropWhile]
        exact hp0
      · exact absurd hq (rstrip0_ne_nil p hex)
    · rw [if_neg hq]; simp
  have htry : tryUnpackPayload ((packWords (padTo4 (0xde :: 0xad :: lenB :: t :: p))).flatten) =
      some (0xde :: 0xad :: lenB :: t :: rstrip0 p) := by
    unfold tryUnpackPayload
    rw [if_neg (not_not_intro hWlen5), hunp]
    have hshB : startsWithHeader (padTo4 (0xde :: 0xad :: lenB :: t :: p)) = true := by
      rw [padTo4_eq]
      simpa using startsWithHeader_cons2 _
    simp [hshB, hstrip]
  have hlast : ¬((rstrip0 p).getLast? = some 0) := by
    rcases rstrip0_getLast?_ne p with h | h
    · simp [h]
    · exact h
  simp only [decodeFrame, hsan, hsw, Bool.false_eq_true, if_false, htry, Option.getD_some,
    HEADER_LENGTH, MIDI_PACKET_HEADER]
  rw [if_neg (by simp)]
  have hsw2 : startsWithHeader (0xde :: 0xad :: lenB :: t :: rstrip0 p) = true :=
    startsWithHeader_cons2 _
  simp only [hsw2, List.length_cons, Bool.true_and, decide_eq_true_eq]
  have hc : ([] : List Nat).length + 1 + 1 + 2 ≤ (rstrip0 p).length + 1 + 1 + 1 + 1 := by
    simp only [List.length_nil]
    omega
  simp only [eq_true hc, if_true]
  simp only [List.length_nil, Nat.reduceAdd, Nat.reduceSub, List.getD_cons_succ,
    List.getD_cons_zero, List.drop_succ_cons, List.drop_zero]
  rw [if_neg hlast]

/-- Frame round-trip through the real encoder: for an in-range payload and
type byte (outside the degenerate all-zero case) the decoder's frame stage
recovers the type byte and the zero-stripped payload. -/
theorem decodeFrame_encoded (p : List Nat) (t : Nat)
    (hp : ∀ b ∈ p, b < 256) (hlen : p.length ≤ 256) (ht : t < 256)
    (hnz : t ≠ 0 ∨ ∃ b ∈ p, b ≠ 0) :
    decodeFrame (encodedSysexBytes p t) = some (t, rstrip0 p) := by
  obtain ⟨-, -, -, ht255⟩ := byte_mask_facts t ht
  have hbuild : buildPayloadChunks p t =
      .ok (packWords (padTo4
        (0xde :: 0xad :: (if p.length ≠ 0 then p.length - 1 else 0) :: t :: p))) := by
    simp only [buildPayloadChunks, MIDI_PACKET_MAX_PAYLOAD, MIDI_PACKET_HEADER]
    rw [if_neg (by omega)]
    simp [ht255]
  have henc : encodedSysexBytes p t =
      (packWords (padTo4
        (0xde :: 0xad :: (if p.length ≠ 0 then p.length - 1 else 0) :: t :: p))).flatten := by
    simp [encodedSysexBytes, hbuild]
  rw [henc]
  exact decodeFrame_wire _ t p (by split_ifs <;> omega) ht hp hnz

/-! ## Claim C1 — codec round-trip -/

/-- C1 (counterexample): the claim, as stated, is false — decoding the
encodings of the two distinct payloads `[7]` and `[9]` with type byte 5
(`ACK`) yields the same `ack` message, which carries no payload at all, so
the decoded message cannot carry "exactly that payload" for every type
byte. -/
theorem codec_roundtrip_counterexample :
    decodePedalMessage noJsonParse (encodedSysexBytes [7] 5) = some .ack ∧
    decodePedalMessage noJsonParse (encodedSysexBytes [9] 5) = some .ack ∧
    rstrip0 [7] ≠ rstrip0 [9] := by
  decide

/-- C1 (amended): for every payload of length 0–256 (bytes < 256) and every
type byte < 256, excluding the degenerate case of a zero type byte with an
all-zero payload, the frame stage of `decodePedalMessage` applied to the
concatenated 5-byte chunks of `buildPayloadChunks` recovers exactly the
type byte and the payload with trailing zeros removed; the full decoder
then dispatches on that type byte, so for any type byte without a dedicated
message variant whose stripped payload does not trim to brace-wrapped text
the result is the raw message carrying exactly the stripped payload. -/
theorem codec_roundtrip_amended (p : List Nat) (t : Nat)
    (hp : ∀ b ∈ p, b < 256) (hlen : p.length ≤ 256) (ht : t < 256)
    (hnz : t ≠ 0 ∨ ∃ b ∈ p, b ≠ 0) :
    decodeFrame (encodedSysexBytes p t) = some (t, rstrip0 p) ∧
    (∀ (J : Type) (parseJson : List Nat → Option J),
      t ∉ ([1, 2, 4, 5, 6, 100, 200, 201] : List Nat) →
      ¬((jsTrimBytes (rstrip0 p)).head? = some 123 ∧
        (jsTrimBytes (rstrip0 p)).getLast? = some 125) →
      decodePedalMessage parseJson (encodedSysexBytes p t) =
        some (.raw (rstrip0 p))) := by
  have hframe := decodeFrame_encoded p t hp hlen ht hnz
  refine ⟨hframe, ?_⟩
  intro J parseJson htype hbrace
  simp only [List.mem_cons, List.not_mem_nil, or_false, not_or] at htype
  obtain ⟨ht1, ht2, ht4, ht5, ht6, ht100, ht200, ht201⟩ := htype
  unfold decodePedalMessage
  rw [hframe]
  simp only [PedalResponseType.ACK, PedalResponseType.ACK_V2, PedalResponseType.NACK,
    PedalResponseType.NACK_V2, PedalResponseType.MICRO_FIRMWARE,
    PedalResponseType.DSP_FIRMWARE, PedalResponseType.PRINTF, PedalResponseType.JSON]
  rw [if_neg (by tauto), if_neg (by tauto), if_neg (by tauto), if_neg ht4, if_neg ht100,
    if_neg hbrace]

/-- C1 witness: the amended round-trip at payload `[1, 2, 3]`, type 3. -/
theorem codec_roundtrip_amended_witness :
    decodeFrame (encodedSysexBytes [1, 2, 3] 3) = some (3, [1, 2, 3]) ∧
    decodePedalMessage noJsonParse (encodedSysexBytes [1, 2, 3] 3) =
      some (.raw [1, 2, 3]) := by
  have h := codec_roundtrip_amended [1, 2, 3] 3 (by decide) (by decide) (by decide)
    (by left; decide)
  exact ⟨by simpa using h.1, by simpa using h.2 Unit noJsonParse (by decide) (by decide)⟩

/-! ## Claim C9 — the decoder does not consult the length byte -/

/-- C9 (counterexample): the claim, as stated, is false in the degenerate
case of type byte 0 with an all-zero payload: there the trailing-zero strip
eats into the frame header, the length byte (which differs between the two
encodings) is misread as payload, and the two decodings differ. -/
theorem decoder_ignores_length_byte_counterexample :
    ¬(decodePedalMessage noJsonParse (encodedSysexBytes ([0] ++ [0]) 0) =
      decodePedalMessage noJsonParse (encodedSysexBytes [0] 0)) := by
  decide

/-- C9 (amended): outside the degenerate case (type byte 0 with an
all-zero payload), decoding the encoding of `p ++ [0]` yields exactly the
same decoded message as decoding the encoding of `p`, for every payload of
length ≤ 255 and every type byte — the decoder never consults the encoded
length byte to delimit the payload, so payloads differing only in trailing
zero bytes are indistinguishable after decoding. -/
theorem decoder_ignores_length_byte {J : Type} (parseJson : List Nat → Option J)
    (p : List Nat) (t : Nat) (hp : ∀ b ∈ p, b < 256) (hlen : p.length ≤ 255)
    (ht : t < 256) (hnz : t ≠ 0 ∨ ∃ b ∈ p, b ≠ 0) :
    decodePedalMessage parseJson (encodedSysexBytes (p ++ [0]) t) =
      decodePedalMessage parseJson (encodedSysexBytes p t) := by
  have h1 := decodeFrame_encoded p t hp (by omega) ht hnz
  have h2 := decodeFrame_encoded (p ++ [0]) t
    (by
      intro b hb
      rcases List.mem_append.mp hb with h | h
      · exact hp b h
      · simp at h; omega)
    (by simp; omega) ht
    (hnz.imp id (fun hex => by
      obtain ⟨b, hb, hbne⟩ := hex
      exact ⟨b, List.mem_append_left _ hb, hbne⟩))
  have hr : rstrip0 (p ++ [0]) = rstrip0 p := by
    simpa using rstrip0_append_replicate p 1
  unfold decodePedalMessage
  rw [h1, h2, hr]

/-- C9 witness: the amended claim at payload `[1, 2]`, type 7. -/
theorem decoder_ignores_length_byte_witness :
    decodePedalMessage noJsonParse (encodedSysexBytes ([1, 2] ++ [0]) 7) =
      decodePedalMessage noJsonParse (encodedSysexBytes [1, 2] 7) :=
  decoder_ignores_length_byte noJsonParse [1, 2] 7 (by decide) (by decide) (by decide)
    (by left; decide)

/-! ## Transport bridge (`src/lib/pedal/bridge.ts`) -/

def DEFAULT_TIMEOUT_MS : Nat := 5000

def RETRY_DELAY_MS : Nat := 500

/-- The per-attempt timeout computation of `sendJsonCommand`:
`options.timeoutMs ?? Math.max(DEFAULT_TIMEOUT_MS, 1200 + payloadChunks.length * 250)`. -/
def sendAttemptTimeoutMs (timeoutMsOpt : Option Nat)
    (payloadChunks : List (List Nat)) : Nat :=
  match timeoutMsOpt with
  | some timeoutMs => timeoutMs
  | none => max DEFAULT_TIMEOUT_MS (1200 + payloadChunks.length * 250)

/-! ## Claim C3 — timeout formula -/

/-- C3: without an explicit `timeoutMs` option, each attempt's timeout is
`max(5000, 1200 + 250 × chunkCount)`; in particular 3 chunks give 5000 ms
and 20 chunks give 6200 ms. -/
theorem send_timeout_formula (payloadChunks : List (List Nat)) :
    sendAttemptTimeoutMs none payloadChunks =
      max 5000 (1200 + 250 * payloadChunks.length) ∧
    (payloadChunks.length = 3 → sendAttemptTimeoutMs none payloadChunks = 5000) ∧
    (payloadChunks.length = 20 → sendAttemptTimeoutMs none payloadChunks = 6200) := by
  refine ⟨by simp [sendAttemptTimeoutMs, DEFAULT_TIMEOUT_MS]; ring_nf, ?_, ?_⟩ <;>
    intro h <;> simp [sendAttemptTimeoutMs, DEFAULT_TIMEOUT_MS, h]

/-- C3 witness: the formula evaluated at concrete chunk lists of length 3
and 20. -/
theorem send_timeout_formula_witness :
    sendAttemptTimeoutMs none (List.replicate 3 ([] : List Nat)) = 5000 ∧
    sendAttemptTimeoutMs none (List.replicate 20 ([] : List Nat)) = 6200 :=
  ⟨(send_timeout_formula (List.replicate 3 [])).2.1 (by decide),
   (send_timeout_formula (List.replicate 20 [])).2.2 (by decide)⟩

/-! ## Bridge pending-request state machine (`src/lib/pedal/bridge.ts`) -/

/-- Parsed JSON values, the payloads of decoded `json` messages. -/
inductive JsonVal where
  | null
  | bool (b : Bool)
  | num (n : Int)
  | str (s : String)
  | arr (elems : List JsonVal)
  | obj (fields : List (String × JsonVal))

/-- Field lookup on a JSON object (`none` on non-objects, mirroring the
`typeof response === "object" && "key" in response` guards). -/
def JsonVal.lookupField : JsonVal → String → Option JsonVal
  | .obj fields, key => fields.lookup key
  | _, _ => none

/-- `response.status === "error"` after the `"status" in response` guard of
`sendJsonCommand`. -/
def isErrorStatusResponse (payload : JsonVal) : Bool :=
  match payload.lookupField "status" with
  | some (.str s) => s == "error"
  | _ => false

/-- `response.reason ?? response.message ?? "Unknown pedal error"`; the
TypeScript response type declares both fields as strings. -/
def extractErrorReason (payload : JsonVal) : String :=
  match payload.lookupField "reason" with
  | some (.str s) => s
  | _ =>
    match payload.lookupField "message" with
    | some (.str s) => s
    | _ => "Unknown pedal error"

/-- The state owned by a `PedalBridge`: the single pending-request slot
(identified by a fresh number) and the per-domain firmware version cache.
`nextId` is a fresh-name supply for pending requests. -/
structure BridgeState where
  pending : Option Nat
  nextId : Nat
  microVersion : Option String
  dspVersion : Option String
deriving DecidableEq

/-- How a pending request promise is settled. -/
inductive Settlement where
  | resolve (payload : JsonVal)
  | reject (message : String)

/-- The message of the `Error` built for a NACK response:
`Pedal responded with NACK (<code>)`. -/
def nackMessage (code : Nat) : String :=
  "Pedal responded with NACK (" ++ toString code ++ ")"

/-- `handleDecodedMessage`: firmware messages update the version cache;
`json` resolves the pending request with its payload; `nack` rejects it
with the NACK error message; `ack` and `printf` are ignored; a `raw`
message whose third byte is a firmware type code updates the version cache
out of band.  The returned effect carries the settled request's id. -/
def handleDecodedMessage (st : BridgeState) (message : PedalDecodedMessage JsonVal) :
    BridgeState × Option (Nat × Settlement) :=
  match message with
  | .firmware domain version =>
    match domain with
    | .micro => ({ st with microVersion := some version }, none)
    | .dsp => ({ st with dspVersion := some version }, none)
  | .json payload =>
    match st.pending with
    | some id => ({ st with pending := none }, some (id, .resolve payload))
    | none => (st, none)
  | .nack code =>
    match st.pending with
    | some id => ({ st with pending := none }, some (id, .reject (nackMessage code)))
    | none => (st, none)
  | .ack => (st, none)
  | .printf _ => (st, none)
  | .raw payload =>
    let version := toString (payload.getD 3 0) ++ "." ++ toString (payload.getD 4 0)
    if payload.getD 2 0 = PedalResponseType.MICRO_FIRMWARE then
      ({ st with microVersion := some version }, none)
    else if payload.getD 2 0 = PedalResponseType.DSP_FIRMWARE then
      ({ st with dspVersion := some version }, none)
    else (st, none)

/-- What `sendJsonCommand` does with the settlement of one attempt: a
resolution whose payload has `status: "error"` is turned into a rejection
with the payload's reason; otherwise the attempt succeeds with the
payload; a rejection propagates. -/
def settleAttempt : Settlement → Except String JsonVal
  | .resolve payload =>
    if isErrorStatusResponse payload then .error (extractErrorReason payload)
    else .ok payload
  | .reject message => .error message

def supersededMessage : String := "Another pedal command is already pending."

/-- The pending-slot handling at the top of `sendOnce`: a still-pending
prior request is rejected with the superseded error and cleared, then the
new request is installed as the only pending one. -/
def sendOnceInstall (st : BridgeState) : BridgeState × Option (Nat × Settlement) :=
  let rejected := st.pending.map (fun id => (id, Settlement.reject supersededMessage))
  ({ st with pending := some st.nextId, nextId := st.nextId + 1 }, rejected)

/-! ## Claim C5 — pending-request settlement -/

/-- C5: with a request pending, ACK and PRINTF messages neither resolve nor
reject it; a JSON message resolves it with its payload — which the sender
then turns into a rejection carrying the payload's reason exactly when the
payload has `status: "error"`; a NACK with code `c` rejects it with an
error message embedding `c`; and only JSON or NACK messages ever settle the
pending request. -/
theorem pending_settlement (st : BridgeState) (id : Nat) (hpend : st.pending = some id) :
    handleDecodedMessage st .ack = (st, none) ∧
    (∀ s, handleDecodedMessage st (.printf s) = (st, none)) ∧
    (∀ payload,
      handleDecodedMessage st (.json payload) =
        ({ st with pending := none }, some (id, .resolve payload)) ∧
      (isErrorStatusResponse payload = true →
        settleAttempt (.resolve payload) = .error (extractErrorReason payload)) ∧
      (isErrorStatusResponse payload = false →
        settleAttempt (.resolve payload) = .ok payload)) ∧
    (∀ code,
      handleDecodedMessage st (.nack code) =
        ({ st with pending := none }, some (id, .reject (nackMessage code))) ∧
      ∃ pre post, nackMessage code = pre ++ toString code ++ post) ∧
    (∀ message, ((handleDecodedMessage st message).2).isSome →
      (∃ p, message = .json p) ∨ (∃ c, message = .nack c)) := by
  refine ⟨rfl, fun s => rfl, ?_, ?_, ?_⟩
  · intro payload
    refine ⟨by simp [handleDecodedMessage, hpend], ?_, ?_⟩ <;>
      intro h <;> simp [settleAttempt, h]
  · intro code
    exact ⟨by simp [handleDecodedMessage, hpend],
      "Pedal responded with NACK (", ")", rfl⟩
  · intro message hsome
    cases message with
    | json payload => exact Or.inl ⟨payload, rfl⟩
    | nack code => exact Or.inr ⟨code, rfl⟩
    | ack => simp [handleDecodedMessage] at hsome
    | printf s => simp [handleDecodedMessage] at hsome
    | firmware domain version =>
      cases domain <;> simp [handleDecodedMessage] at hsome
    | raw payload =>
      simp only [handleDecodedMessage] at hsome
      split_ifs at hsome <;> simp at hsome

/-- C5 witness: a NACK with code 3 rejects a pending request with a message
embedding `3`; a JSON payload with `status: "error"` makes the attempt
reject with the payload's reason; an ACK leaves the request pending. -/
theorem pending_settlement_witness :
    handleDecodedMessage ⟨some 0, 1, none, none⟩ (.nack 3) =
      (⟨none, 1, none, none⟩, some (0, .reject (nackMessage 3))) ∧
    (∃ pre post, nackMessage 3 = pre ++ toString 3 ++ post) ∧
    settleAttempt (.resolve (JsonVal.obj
      [("status", .str "error"), ("reason", .str "slot busy")])) = .error "slot busy" ∧
    handleDecodedMessage ⟨some 0, 1, none, none⟩ .ack =
      (⟨some 0, 1, none, none⟩, none) := by
  have h := pending_settlement ⟨some 0, 1, none, none⟩ 0 rfl
  refine ⟨(h.2.2.2.1 3).1, (h.2.2.2.1 3).2, ?_, h.1⟩
  have h2 := (h.2.2.1 (JsonVal.obj
    [("status", .str "error"), ("reason", .str "slot busy")])).2.1 rfl
  have he : extractErrorReason (JsonVal.obj
      [("status", .str "error"), ("reason", .str "slot busy")]) = "slot busy" := rfl
  rw [he] at h2
  exact h2

/-! ## Claim C6 — single pending request -/

/-- C6: starting a new send attempt installs the new request as the only
pending one; if a prior request was still in flight it is rejected with the
explicit superseded error (and is no longer pending), and nothing is
queued; with no prior request nothing is rejected. -/
theorem single_pending_request (st : BridgeState) :
    (sendOnceInstall st).1.pending = some st.nextId ∧
    (sendOnceInstall st).1.nextId = st.nextId + 1 ∧
    (st.pending = none → (sendOnceInstall st).2 = none) ∧
    (∀ id, st.pending = some id →
      (sendOnceInstall st).2 = some (id, .reject supersededMessage) ∧
      (id < st.nextId → (sendOnceInstall st).1.pending ≠ some id)) := by
  refine ⟨rfl, rfl, ?_, ?_⟩
  · intro h; simp [sendOnceInstall, h]
  · intro id h
    refine ⟨by simp [sendOnceInstall, h], ?_⟩
    intro hlt hc
    simp only [sendOnceInstall, Option.some.injEq] at hc
    omega

/-- C6 witness: superseding a pending request with id 5 (fresh id 6). -/
theorem single_pending_request_witness :
    (sendOnceInstall ⟨some 5, 6, none, none⟩).2 =
      some (5, .reject supersededMessage) ∧
    (sendOnceInstall ⟨some 5, 6, none, none⟩).1.pending = some 6 ∧
    (sendOnceInstall ⟨some 5, 6, none, none⟩).1.pending ≠ some 5 := by
  have h := single_pending_request ⟨some 5, 6, none, none⟩
  exact ⟨(h.2.2.2 5 rfl).1, h.1, (h.2.2.2 5 rfl).2 (by decide)⟩

/-! ## MIDI domain model (`src/lib/domain/midi.ts`) -/

/-- `MidiStep`, the tagged union of macro steps.  Channels and data bytes
are `Nat` (the importer clamps them into range); the optional
label/description/delay fields and the optional PC bank are omitted as no
modelled operation reads them.  The `id` field is the identity used for
diffing, ignored by structural equality. -/
inductive MidiStep where
  | cc (id : String) (controller value channel : Nat)
  | pc (id : String) (program channel : Nat)
  | custom (id : String) (bytes : List Nat)
  | partialRef (id : String) (partialId name : String)
deriving DecidableEq

/-- `true` for the raw (`cc`/`pc`/`custom`) step kinds. -/
def isRawStep : MidiStep → Bool
  | .partialRef .. => false
  | _ => true

/-- `MidiPartial`: a named reusable group of raw commands.  The TypeScript
type restricts `commands` to raw steps; that restriction appears below as
an explicit hypothesis where needed. -/
structure MidiPartialGroup where
  id : String
  name : String
  commands : List MidiStep
deriving DecidableEq

/-- `MidiMacro` (fields used by the modelled operations). -/
structure MidiMacroDef where
  id : String
  name : String
  steps : List MidiStep
deriving DecidableEq

/-- `stepsEqual` (importer.ts): structural step equality ignoring the
identity field. -/
def stepsEqual (a b : MidiStep) : Bool :=
  match a, b with
  | .cc _ ac av ach, .cc _ bc bv bch => ach == bch && ac == bc && av == bv
  | .pc _ ap ach, .pc _ bp bch => ach == bch && ap == bp
  | .custom _ ab, .custom _ bb => ab == bb
  | .partialRef _ apid _, .partialRef _ bpid _ => apid == bpid
  | _, _ => false

/-- Pointwise structural equality of step lists (equal length and
`stepsEqual` at every position — the `slice`-length guard plus `.every`
check of the compression loop). -/
def stepsListEqual : List MidiStep → List MidiStep → Bool
  | [], [] => true
  | a :: xs, b :: ys => stepsEqual a b && stepsListEqual xs ys
  | _, _ => false

/-! ## Partial compression engine
(`replaceWithPartials` in importer.ts, `expandMacroSteps` in exporter.ts) -/

/-- The scan loop of `replaceWithPartials`.  At each position the first
catalog partial whose (nonempty) command list fits in the remaining steps
and matches them pairwise by `stepsEqual` replaces that run with a single
`partialRef`; otherwise the step is copied unchanged.  The source loop
advances an index into a fixed array; here the remaining list shrinks by
the same amount each iteration and `fuel`, initialised to the step count
(an upper bound on the number of iterations), makes the recursion
structural without changing the computed value. -/
def replaceStepsGo (macroId : String) (partials : List MidiPartialGroup) :
    Nat → Nat → List MidiStep → List MidiStep
  | 0, _, steps => steps
  | _ + 1, _, [] => []
  | fuel + 1, i, step :: rest =>
    match partials.find? (fun q =>
        !q.commands.isEmpty &&
        decide (q.commands.length ≤ (step :: rest).length) &&
        stepsListEqual ((step :: rest).take q.commands.length) q.commands) with
    | some q =>
      .partialRef (macroId ++ "-partial-" ++ toString i) q.id q.name ::
        replaceStepsGo macroId partials fuel (i + q.commands.length)
          ((step :: rest).drop q.commands.length)
    | none => step :: replaceStepsGo macroId partials fuel (i + 1) rest

/-- `replaceWithPartials(macro, partials)`. -/
def replaceWithPartials (m : MidiMacroDef) (partials : List MidiPartialGroup) :
    MidiMacroDef :=
  if partials.isEmpty || m.steps.isEmpty then m
  else { m with steps := replaceStepsGo m.id partials m.steps.length 0 m.steps }

/-- The `new Map(partials.map(p => [p.id, p]))` lookup: on duplicate ids
the later entry wins. -/
def lookupLastById : List MidiPartialGroup → String → Option MidiPartialGroup
  | [], _ => none
  | q :: rest, pid =>
    match lookupLastById rest pid with
    | some r => some r
    | none => if q.id == pid then some q else none

/-- `expandMacroSteps(steps, partials)` (exporter.ts): replace each
`partialRef` by its partial's commands (keeping only the raw kinds, as the
source validates), drop unresolvable references, copy other steps. -/
def expandMacroSteps : List MidiStep → List MidiPartialGroup → List MidiStep
  | [], _ => []
  | .partialRef _ pid _ :: rest, partials =>
    (match lookupLastById partials pid with
     | some q => q.commands.filter isRawStep
     | none => []) ++ expandMacroSteps rest partials
  | s :: rest, partials => s :: expandMacroSteps rest partials

/-! ## Exporter (`src/lib/pedal/exporter.ts`) -/

/-- The JSON fields of one `set_macro_cmd` body (`type`, `midi-ch`, `num`,
`val`); `none` models an absent/`undefined` field. -/
structure DeviceCommand where
  type : Option String
  midiCh : Option Nat
  num : Option Nat
  val : Option Nat
deriving DecidableEq

/-- `encodeMidiStepForDevice`: CC and PC steps map to their field records,
custom steps are skipped with an all-`undefined` record and a warning, and
an unexpanded partial reference throws. -/
def encodeMidiStepForDevice : MidiStep → Except String DeviceCommand
  | .cc _ controller value channel => .ok ⟨some "CC", some channel, some controller, some value⟩
  | .pc _ program channel => .ok ⟨some "PC", some channel, some program, none⟩
  | .custom _ _ => .ok ⟨none, none, none, none⟩
  | .partialRef _ _ name =>
    .error ("[Exporter] Partial step \"" ++ name ++
      "\" was not expanded before encoding. This is a bug.")

/-- The explicit empty sentinel written for vacant positions:
`type "-"`, `num 0`, `val 0`, `midi-ch 1`. -/
def emptySlotCommand : DeviceCommand := ⟨some "-", some 1, some 0, some 0⟩

/-- The commands `exportMacroToDevice` sends through the bridge. -/
inductive ExportCmd where
  | clearMacroCmd (index : Int)
  | setMacroCmdW (index : Int) (slot : Nat) (command : DeviceCommand)
  | setMacroNameW (index : Int) (name : String)
deriving DecidableEq

/-- The `for (slot = 0; slot < MAX_MACRO_COMMANDS; slot++)` write loop:
one `set_macro_cmd` per position, the encoded step where one exists and the
empty sentinel otherwise; an encoding error aborts (the source would throw
out of the loop). -/
def exportSlotCommandsFrom (slotIndex : Int) (expandedSteps : List MidiStep)
    (slot : Nat) : Nat → Except String (List ExportCmd)
  | 0 => .ok []
  | remaining + 1 =>
    let head : Except String ExportCmd :=
      match expandedSteps.get? slot with
      | some step =>
        (encodeMidiStepForDevice step).map (fun d => .setMacroCmdW slotIndex slot d)
      | none => .ok (.setMacroCmdW slotIndex slot emptySlotCommand)
    match head with
    | .error e => .error e
    | .ok command =>
      match exportSlotCommandsFrom slotIndex expandedSteps (slot + 1) remaining with
      | .error e => .error e
      | .ok rest => .ok (command :: rest)

/-- `exportMacroToDevice(bridge, macro, slotIndex, partials)`, modelled as
the list of commands sent.  The per-macro command capacity
`MAX_MACRO_COMMANDS` is imported from `constants` in the source but not
defined in the available sources, so it is a parameter here; nothing below
depends on its value. -/
def exportMacroToDevice (m : MidiMacroDef) (slotIndex : Int)
    (partials : List MidiPartialGroup) (maxMacroCommands : Nat) :
    Except String (List ExportCmd) :=
  if slotIndex < 0 ∨ (MACRO_SLOT_COUNT : Int) ≤ slotIndex then
    .error ("Invalid macro slot index: " ++ toString slotIndex ++ ". Must be 0-" ++
      toString (MACRO_SLOT_COUNT - 1))
  else
    let expandedSteps := expandMacroSteps m.steps partials
    if expandedSteps.isEmpty then
      .ok [.clearMacroCmd slotIndex]
    else
      match exportSlotCommandsFrom slotIndex expandedSteps 0 maxMacroCommands with
      | .error e => .error e
      | .ok commands => .ok (commands ++ [.setMacroNameW slotIndex m.name])

/-- Encoding a raw step never throws; `deviceCommandOfRaw` names its
result. -/
def deviceCommandOfRaw (s : MidiStep) : DeviceCommand :=
  match encodeMidiStepForDevice s with
  | .ok d => d
  | .error _ => emptySlotCommand

theorem encode_raw_ok (s : MidiStep) (h : isRawStep s = true) :
    encodeMidiStepForDevice s = .ok (deviceCommandOfRaw s) := by
  cases s <;> simp_all [encodeMidiStepForDevice, deviceCommandOfRaw, isRawStep]

/-- Every step produced by `expandMacroSteps` is raw: partial references
are replaced by (filtered raw) commands or dropped. -/
theorem expandMacroSteps_raw (steps : List MidiStep) (partials : List MidiPartialGroup) :
    ∀ s ∈ expandMacroSteps steps partials, isRawStep s = true := by
  induction steps with
  | nil => simp [expandMacroSteps]
  | cons a rest ih =>
    cases a with
    | partialRef id pid nm =>
      intro s hs
      cases hq : lookupLastById partials pid <;>
        simp only [expandMacroSteps, hq, List.nil_append, List.mem_append] at hs
      · exact ih s hs
      · rcases hs with h | h
        · exact (List.mem_filter.mp h).2
        · exact ih s h
    | cc id controller value channel =>
      intro s hs
      rcases List.mem_cons.mp hs with h | h
      · subst h; rfl
      · exact ih s h
    | pc id program channel =>
      intro s hs
      rcases List.mem_cons.mp hs with h | h
      · subst h; rfl
      · exact ih s h
    | custom id bytes =>
      intro s hs
      rcases List.mem_cons.mp hs with h | h
      · subst h; rfl
      · exact ih s h

/-- The per-position write loop on raw steps: it never fails and writes,
for each position `slot ≤ j < slot + remaining`, the encoded step where
one exists and the empty sentinel otherwise, in position order. -/
theorem exportSlotCommandsFrom_ok (slotIndex : Int) (es : List MidiStep)
    (hraw : ∀ s ∈ es, isRawStep s = true) :
    ∀ (remaining slot : Nat),
      exportSlotCommandsFrom slotIndex es slot remaining =
        .ok ((List.range' slot remaining).map (fun j =>
          ExportCmd.setMacroCmdW slotIndex j
            (match es.get? j with
             | some step => deviceCommandOfRaw step
             | none => emptySlotCommand))) := by
  intro remaining
  induction remaining with
  | zero => intro slot; rfl
  | succ n ih =>
    intro slot
    have hd : (match es.get? slot with
        | some step =>
          (encodeMidiStepForDevice step).map (fun d => ExportCmd.setMacroCmdW slotIndex slot d)
        | none => Except.ok (.setMacroCmdW slotIndex slot emptySlotCommand)) =
        .ok (ExportCmd.setMacroCmdW slotIndex slot
          (match es.get? slot with
           | some step => deviceCommandOfRaw step
           | none => emptySlotCommand)) := by
      cases hq : es.get? slot with
      | none => rfl
      | some step =>
        have he := encode_raw_ok step (hraw step (List.get?_mem hq))
        simp [he, Except.map]
    simp only [exportSlotCommandsFrom, hd, ih (slot + 1), List.range'_succ, List.map_cons]

/-! ## Claim C10 — empty-macro export short-circuit -/

/-- C10: when the expanded step list is empty, the export sends exactly one
`clear_macro` for the slot and nothing else — no per-position writes (not
even sentinels) and no name write. -/
theorem empty_macro_export_clear (m : MidiMacroDef) (slotIndex : Int)
    (partials : List MidiPartialGroup) (maxMacroCommands : Nat)
    (h0 : 0 ≤ slotIndex) (h1 : slotIndex < (MACRO_SLOT_COUNT : Int))
    (hempty : expandMacroSteps m.steps partials = []) :
    exportMacroToDevice m slotIndex partials maxMacroCommands =
      .ok [.clearMacroCmd slotIndex] := by
  unfold exportMacroToDevice
  rw [if_neg (by simp only [MACRO_SLOT_COUNT] at h1 ⊢; omega)]
  simp [hempty]

/-- C10 witness: a macro with no steps at slot 0 and capacity 8. -/
theorem empty_macro_export_clear_witness :
    exportMacroToDevice ⟨"macro-000", "Macro 1", []⟩ 0 [] 8 =
      .ok [.clearMacroCmd 0] :=
  empty_macro_export_clear ⟨"macro-000", "Macro 1", []⟩ 0 [] 8 (by decide)
    (by decide) rfl

/-! ## Claim C8 — precondition errors fail loudly -/

/-- C8: an oversized payload makes `buildPayloadChunks` throw; an
out-of-range slot index makes `exportMacroToDevice` throw before any
command is sent; an unexpanded partial reference makes
`encodeMidiStepForDevice` throw. -/
theorem precondition_errors_fail :
    (∀ (payload : List Nat) (type : Nat), MIDI_PACKET_MAX_PAYLOAD < payload.length →
      ∃ e, buildPayloadChunks payload type = .error e) ∧
    (∀ (m : MidiMacroDef) (slotIndex : Int) (partials : List MidiPartialGroup)
      (maxMacroCommands : Nat),
      slotIndex < 0 ∨ (MACRO_SLOT_COUNT : Int) ≤ slotIndex →
      ∃ e, exportMacroToDevice m slotIndex partials maxMacroCommands = .error e) ∧
    (∀ (id partialId name : String),
      ∃ e, encodeMidiStepForDevice (.partialRef id partialId name) = .error e) := by
  refine ⟨?_, ?_, ?_⟩
  · intro payload type h
    refine ⟨"Packet length too large (" ++ toString payload.length ++
      "). Maximum is " ++ toString MIDI_PACKET_MAX_PAYLOAD ++ ".", ?_⟩
    unfold buildPayloadChunks
    rw [if_pos h]
  · intro m slotIndex partials maxMacroCommands h
    refine ⟨"Invalid macro slot index: " ++ toString slotIndex ++ ". Must be 0-" ++
      toString (MACRO_SLOT_COUNT - 1), ?_⟩
    unfold exportMacroToDevice
    rw [if_pos h]
  · intro id partialId name
    exact ⟨"[Exporter] Partial step \"" ++ name ++
      "\" was not expanded before encoding. This is a bug.", rfl⟩

/-- `true` exactly on thrown (`error`) results. -/
def exceptIsError {ε α : Type} : Except ε α → Bool
  | .error _ => true
  | .ok _ => false

/-- C8 witness: a 257-byte payload, slot indices 128 and −1, and a partial
reference reaching the step encoder, each producing an error. -/
theorem precondition_errors_fail_witness :
    exceptIsError (buildPayloadChunks (List.replicate 257 0) 2) = true ∧
    exceptIsError (exportMacroToDevice ⟨"m", "M", []⟩ 128 [] 8) = true ∧
    exceptIsError (exportMacroToDevice ⟨"m", "M", []⟩ (-1) [] 8) = true ∧
    exceptIsError (encodeMidiStepForDevice (.partialRef "x" "p1" "P")) = true := by
  obtain ⟨e1, he1⟩ := precondition_errors_fail.1 (List.replicate 257 0) 2
    (by simp only [List.length_replicate]; decide)
  obtain ⟨e2, he2⟩ := precondition_errors_fail.2.1 ⟨"m", "M", []⟩ 128 [] 8
    (by right; simp [MACRO_SLOT_COUNT])
  obtain ⟨e3, he3⟩ := precondition_errors_fail.2.1 ⟨"m", "M", []⟩ (-1) [] 8
    (by left; decide)
  obtain ⟨e4, he4⟩ := precondition_errors_fail.2.2 "x" "p1" "P"
  rw [he1, he2, he3, he4]
  exact ⟨rfl, rfl, rfl, rfl⟩

/-! ## Claim C7 — macro export write sequence -/

/-- C7 (amended): for every macro whose expanded step list is nonempty,
exported to a valid slot index, the exporter issues exactly one
`set_macro_cmd` write per position `0 ≤ slot < capacity` — the encoded
expanded step where one exists, the explicit empty sentinel for every
vacant position — followed by the single `set_macro_name` write strictly
after all of them; and encoding an expanded step never fails. -/
theorem macro_export_write_sequence (m : MidiMacroDef) (slotIndex : Int)
    (partials : List MidiPartialGroup) (maxMacroCommands : Nat)
    (h0 : 0 ≤ slotIndex) (h1 : slotIndex < (MACRO_SLOT_COUNT : Int))
    (hne : expandMacroSteps m.steps partials ≠ []) :
    exportMacroToDevice m slotIndex partials maxMacroCommands =
      .ok ((List.range maxMacroCommands).map (fun slot =>
        ExportCmd.setMacroCmdW slotIndex slot
          (match (expandMacroSteps m.steps partials).get? slot with
           | some step => deviceCommandOfRaw step
           | none => emptySlotCommand)) ++
        [ExportCmd.setMacroNameW slotIndex m.name]) ∧
    (∀ step ∈ expandMacroSteps m.steps partials,
      encodeMidiStepForDevice step = .ok (deviceCommandOfRaw step)) := by
  have hraw := expandMacroSteps_raw m.steps partials
  constructor
  · unfold exportMacroToDevice
    rw [if_neg (by simp only [MACRO_SLOT_COUNT] at h1 ⊢; omega)]
    simp only [List.isEmpty_iff, hne, ite_false, if_neg,
      exportSlotCommandsFrom_ok slotIndex _ hraw maxMacroCommands 0,
      List.range_eq_range']
  · intro step hs
    exact encode_raw_ok step (hraw step hs)

/-- C7 witness: a one-step macro at slot 0 with capacity 2: the CC write,
one sentinel write, then the name write. -/
theorem macro_export_write_sequence_witness :
    exportMacroToDevice ⟨"macro-000", "My Macro", [.cc "s" 10 64 1]⟩ 0 [] 2 =
      .ok [.setMacroCmdW 0 0 ⟨some "CC", some 1, some 10, some 64⟩,
           .setMacroCmdW 0 1 emptySlotCommand,
           .setMacroNameW 0 "My Macro"] := by
  have h := macro_export_write_sequence ⟨"macro-000", "My Macro", [.cc "s" 10 64 1]⟩ 0 [] 2
    (by decide) (by decide) (by decide)
  rw [h.1]
  rfl

/-- C7 (counterexample): the claim as stated fails for a macro whose
expanded step list is empty: at slot 0 with capacity 8 the exporter sends
only the single clear command — no per-position writes (the claim requires
one for every position up to the capacity) and no `set_macro_name` write. -/
theorem macro_export_write_sequence_counterexample :
    exportMacroToDevice ⟨"macro-001", "Empty", []⟩ 0 [] 8 = .ok [.clearMacroCmd 0] ∧
    ¬∃ commands, exportMacroToDevice ⟨"macro-001", "Empty", []⟩ 0 [] 8 = .ok commands ∧
      ∃ i name, ExportCmd.setMacroNameW i name ∈ commands := by
  have h : exportMacroToDevice ⟨"macro-001", "Empty", []⟩ 0 [] 8 =
      .ok [.clearMacroCmd 0] := rfl
  refine ⟨h, ?_⟩
  rintro ⟨commands, hc, i, name, hm⟩
  rw [h] at hc
  simp only [Except.ok.injEq] at hc
  subst hc
  simp at hm

/-! ## Structural-equality lemmas for the compression engine -/

theorem stepsEqual_refl (s : MidiStep) : stepsEqual s s = true := by
  cases s <;> simp [stepsEqual]

theorem stepsEqual_symm (a b : MidiStep) (h : stepsEqual a b = true) :
    stepsEqual b a = true := by
  cases a <;> cases b <;> simp_all [stepsEqual]

theorem stepsListEqual_refl (xs : List MidiStep) : stepsListEqual xs xs = true := by
  induction xs with
  | nil => rfl
  | cons a xs ih => simp [stepsListEqual, stepsEqual_refl, ih]

theorem stepsListEqual_symm (xs ys : List MidiStep) (h : stepsListEqual xs ys = true) :
    stepsListEqual ys xs = true := by
  induction xs generalizing ys with
  | nil => cases ys with
    | nil => rfl
    | cons b ys => simp [stepsListEqual] at h
  | cons a xs ih =>
    cases ys with
    | nil => simp [stepsListEqual] at h
    | cons b ys =>
      simp only [stepsListEqual, Bool.and_eq_true] at h ⊢
      exact ⟨stepsEqual_symm a b h.1, ih ys h.2⟩

theorem stepsListEqual_append (xs1 ys1 xs2 ys2 : List MidiStep)
    (h1 : stepsListEqual xs1 ys1 = true) (h2 : stepsListEqual xs2 ys2 = true) :
    stepsListEqual (xs1 ++ xs2) (ys1 ++ ys2) = true := by
  induction xs1 generalizing ys1 with
  | nil =>
    cases ys1 with
    | nil => simpa using h2
    | cons b ys1 => simp [stepsListEqual] at h1
  | cons a xs1 ih =>
    cases ys1 with
    | nil => simp [stepsListEqual] at h1
    | cons b ys1 =>
      simp only [stepsListEqual, Bool.and_eq_true] at h1
      simp only [List.cons_append, stepsListEqual, Bool.and_eq_true]
      exact ⟨h1.1, ih ys1 h1.2⟩

/-- Expanding past a raw step copies it. -/
theorem expand_raw_cons (s : MidiStep) (rest : List MidiStep)
    (partials : List MidiPartialGroup) (h : isRawStep s = true) :
    expandMacroSteps (s :: rest) partials = s :: expandMacroSteps rest partials := by
  cases s <;> simp_all [expandMacroSteps, isRawStep]

/-- Expansion is the identity on step lists without partial references. -/
theorem expand_raw_id (steps : List MidiStep) (partials : List MidiPartialGroup)
    (h : ∀ s ∈ steps, isRawStep s = true) :
    expandMacroSteps steps partials = steps := by
  induction steps with
  | nil => rfl
  | cons s rest ih =>
    rw [expand_raw_cons s rest partials (h s (by simp))]
    rw [ih (fun x hx => h x (by simp [hx]))]

theorem lookupLastById_not_mem (partials : List MidiPartialGroup) (pid : String)
    (h : pid ∉ partials.map MidiPartialGroup.id) :
    lookupLastById partials pid = none := by
  induction partials with
  | nil => rfl
  | cons q rest ih =>
    simp only [List.map_cons, List.mem_cons, not_or] at h
    simp only [lookupLastById, ih h.2]
    rw [if_neg (by simp [Ne.symm h.1])]

/-- With pairwise-distinct ids, the `Map` lookup finds exactly the catalog
entry. -/
theorem lookupLastById_mem_nodup (partials : List MidiPartialGroup)
    (q : MidiPartialGroup) (hnodup : (partials.map MidiPartialGroup.id).Nodup)
    (hmem : q ∈ partials) : lookupLastById partials q.id = some q := by
  induction partials with
  | nil => simp at hmem
  | cons r rest ih =>
    simp only [List.map_cons, List.nodup_cons] at hnodup
    rcases List.mem_cons.mp hmem with h | h
    · subst h
      rw [lookupLastById, lookupLastById_not_mem rest q.id hnodup.1]
      simp
    · rw [lookupLastById, ih hnodup.2 h]

/-- Round-trip of the scan loop: expanding the compressed form of a raw
step list is pointwise structurally equal to the original. -/
theorem expand_replaceStepsGo (partials : List MidiPartialGroup) (macroId : String)
    (hcat : ∀ q ∈ partials, ∀ c ∈ q.commands, isRawStep c = true)
    (hnodup : (partials.map MidiPartialGroup.id).Nodup) :
    ∀ (fuel : Nat) (steps : List MidiStep) (i : Nat), steps.length ≤ fuel →
      (∀ s ∈ steps, isRawStep s = true) →
      stepsListEqual
        (expandMacroSteps (replaceStepsGo macroId partials fuel i steps) partials)
        steps = true := by
  intro fuel
  induction fuel with
  | zero =>
    intro steps i hle hraw
    have hnil : steps = [] := List.length_eq_zero.mp (Nat.le_zero.mp hle)
    subst hnil
    simp [replaceStepsGo, expandMacroSteps, stepsListEqual]
  | succ n ih =>
    intro steps i hle hraw
    cases steps with
    | nil => simp [replaceStepsGo, expandMacroSteps, stepsListEqual]
    | cons step rest =>
      simp only [replaceStepsGo]
      cases hf : partials.find? (fun q =>
          !q.commands.isEmpty && decide (q.commands.length ≤ (step :: rest).length) &&
          stepsListEqual ((step :: rest).take q.commands.length) q.commands) with
      | none =>
        have hstep : isRawStep step = true := hraw step (by simp)
        rw [expand_raw_cons _ _ _ hstep]
        simp only [stepsListEqual, hstep, Bool.and_eq_true, stepsEqual_refl, true_and]
        exact ih rest (i + 1) (by simp only [List.length_cons] at hle; omega)
          (fun s hs => hraw s (by simp [hs]))
      | some q =>
        have hpred := List.find?_some hf
        have hqmem := List.mem_of_find?_eq_some hf
        simp only [Bool.and_eq_true, Bool.not_eq_true', decide_eq_true_eq] at hpred
        obtain ⟨⟨hne', hfit⟩, hmatch⟩ := hpred
        have hlook := lookupLastById_mem_nodup partials q hnodup hqmem
        simp only [expandMacroSteps, hlook]
        rw [List.filter_eq_self.mpr (fun c hc => hcat q hqmem c hc)]
        have hlen1 : 1 ≤ q.commands.length := by
          cases hq : q.commands with
          | nil => simp [hq] at hne'
          | cons c cs => simp [hq]
        have hih : stepsListEqual
            (expandMacroSteps
              (replaceStepsGo macroId partials n (i + q.commands.length)
                ((step :: rest).drop q.commands.length)) partials)
            ((step :: rest).drop q.commands.length) = true := by
          refine ih ((step :: rest).drop q.commands.length) (i + q.commands.length) ?_ ?_
          · simp only [List.length_drop, List.length_cons]
            simp only [List.length_cons] at hle
            omega
          · intro s hs
            exact hraw s (List.mem_of_mem_drop hs)
        have happ := stepsListEqual_append q.commands
          ((step :: rest).take q.commands.length)
          (expandMacroSteps
            (replaceStepsGo macroId partials n (i + q.commands.length)
              ((step :: rest).drop q.commands.length)) partials)
          ((step :: rest).drop q.commands.length)
          (stepsListEqual_symm _ _ hmatch) hih
        rw [List.take_append_drop] at happ
        exact happ

/-! ## Claim C4 — partial compression round-trip -/

/-- C4 (counterexample): the claim, as stated over any macro step list,
fails when the input itself contains a partial reference: compression
leaves the reference in place (it matches no catalog run structurally) and
expansion then replaces it by the partial's raw commands, which are not
structurally equal to the original reference step. -/
theorem partial_roundtrip_counterexample :
    expandMacroSteps
        (replaceWithPartials ⟨"m", "M", [.partialRef "x" "P1" "P"]⟩
          [⟨"P1", "P", [.cc "s1" 10 64 1]⟩]).steps
        [⟨"P1", "P", [.cc "s1" 10 64 1]⟩] ≠
      [MidiStep.partialRef "x" "P1" "P"] ∧
    stepsListEqual
      (expandMacroSteps
        (replaceWithPartials ⟨"m", "M", [.partialRef "x" "P1" "P"]⟩
          [⟨"P1", "P", [.cc "s1" 10 64 1]⟩]).steps
        [⟨"P1", "P", [.cc "s1" 10 64 1]⟩])
      [MidiStep.partialRef "x" "P1" "P"] = false := by
  decide

/-- C4 (amended): for any step list of raw (cc/pc/custom) steps and any
catalog whose entries have pairwise-distinct ids and raw-only commands (the
claim's non-nested, non-overlapping catalog), expansion undoes compression
up to the structural step equality `stepsEqual` that compression itself
uses — `expand(compress(steps, catalog), catalog)` is pointwise
structurally equal to `steps`, ignoring step identity. -/
theorem partial_roundtrip_amended (m : MidiMacroDef) (partials : List MidiPartialGroup)
    (hcat : ∀ q ∈ partials, ∀ c ∈ q.commands, isRawStep c = true)
    (hnodup : (partials.map MidiPartialGroup.id).Nodup)
    (hraw : ∀ s ∈ m.steps, isRawStep s = true) :
    stepsListEqual
      (expandMacroSteps (replaceWithPartials m partials).steps partials)
      m.steps = true := by
  unfold replaceWithPartials
  by_cases hg : partials.isEmpty || m.steps.isEmpty
  · rw [if_pos hg, expand_raw_id m.steps partials hraw]
    exact stepsListEqual_refl m.steps
  · rw [if_neg hg]
    exact expand_replaceStepsGo partials m.id hcat hnodup m.steps.length m.steps 0
      le_rfl hraw

/-- C4 witness: a macro with a duplicated CC (different ids) and a PC step
against a one-command catalog partial — both CC occurrences compress to
references and the expansion is structurally equal to the original. -/
theorem partial_roundtrip_amended_witness :
    stepsListEqual
      (expandMacroSteps
        (replaceWithPartials
          ⟨"m", "M", [.cc "a" 10 64 1, .cc "b" 10 64 1, .pc "c" 5 1]⟩
          [⟨"P1", "P", [.cc "x" 10 64 1]⟩]).steps
        [⟨"P1", "P", [.cc "x" 10 64 1]⟩])
      [.cc "a" 10 64 1, .cc "b" 10 64 1, .pc "c" 5 1] = true :=
  partial_roundtrip_amended
    ⟨"m", "M", [.cc "a" 10 64 1, .cc "b" 10 64 1, .pc "c" 5 1]⟩
    [⟨"P1", "P", [.cc "x" 10 64 1]⟩]
    (by decide) (by decide) (by decide)

/-! ## Slot scanner (`src/lib/pedal/importer.ts`) -/

/-- The result of one `await bridge.sendJsonCommand(...)` in the scan
loops: either the promise rejected (`throw`, caught by the surrounding
`try`) or it resolved to a response object. -/
inductive SimResp (α : Type) where
  | throw (message : String)
  | ok (response : α)
deriving DecidableEq

/-- `String.prototype.padStart(width, "0")`. -/
def padStartZeroStr (width : Nat) (s : String) : String :=
  if width ≤ s.length then s
  else String.mk (List.replicate (width - s.length) '0') ++ s

/-- `n.toString().padStart(width, "0")`. -/
def padStartZeros (width n : Nat) : String :=
  padStartZeroStr width (toString n)

def DEFAULT_SONG_BPM : Int := 80

def DEFAULT_TIME_SIGNATURE_ID : Nat := 3

def defaultSongName (index : Nat) : String := "Song " ++ toString (index + 1)

def defaultSetlistName (index : Nat) : String := "Setlist " ++ toString (index + 1)

def defaultMacroName (index : Nat) : String := "Macro " ++ toString (index + 1)

def isDefaultSetlistName (name : String) (index : Nat) : Bool :=
  name == defaultSetlistName index

def isDefaultMacroName (name : String) (index : Nat) : Bool :=
  name == defaultMacroName index

structure TimeSignature where
  beatsPerBar : Nat
  beatUnit : Nat
deriving DecidableEq

/-- `TIME_SIGNATURE_LOOKUP` (constants.ts). -/
def TIME_SIGNATURE_LOOKUP (n : Nat) : Option TimeSignature :=
  if n = 1 then some ⟨2, 4⟩
  else if n = 2 then some ⟨3, 4⟩
  else if n = 3 then some ⟨4, 4⟩
  else if n = 4 then some ⟨6, 8⟩
  else none

structure MidiMacroInstance where
  id : String
  macroId : String
  enabled : Bool
deriving DecidableEq

/-- `Song` (domain/project.ts); the `updatedAt` timestamp and optional
notes are omitted (the scanner fills them with the wall clock). -/
structure Song where
  id : String
  title : String
  key : String
  tempo : Int
  timeSignature : TimeSignature
  macros : List MidiMacroInstance
deriving DecidableEq

/-- The fields of a `get_song_details` response read by the importer. -/
structure SongDetailsResponse where
  status : Option String
  name : Option String
  bpm : Option Int
  metroTimeSig : Option Nat
  midiMacroSlot : Option Int
deriving DecidableEq

/-- `mapSongResponse(response, index)`. -/
def mapSongResponse (response : SongDetailsResponse) (index : Nat) : Song :=
  let id := "song-" ++ padStartZeros 3 index
  let title :=
    match response.name with
    | some n => if 0 < n.length then n else defaultSongName index
    | none => defaultSongName index
  let tempo := response.bpm.getD DEFAULT_SONG_BPM
  let timeSignatureId := response.metroTimeSig.getD DEFAULT_TIME_SIGNATURE_ID
  let timeSignature := (TIME_SIGNATURE_LOOKUP timeSignatureId).getD ⟨4, 4⟩
  let macros :=
    match response.midiMacroSlot with
    | some slot =>
      if 0 ≤ slot then
        let macroId := "macro-" ++ padStartZeros 3 slot.toNat
        [⟨id ++ "-macro-" ++ macroId, macroId, true⟩]
      else []
    | none => []
  ⟨id, title, "", tempo, timeSignature, macros⟩

/-- `pattern` is a prefix of the character list. -/
def charsStartWith : List Char → List Char → Bool
  | _, [] => true
  | [], _ :: _ => false
  | a :: s, b :: pattern => a == b && charsStartWith s pattern

/-- JavaScript `String.prototype.replace` with a string pattern replaces
only the first occurrence. -/
def replaceFirstChars (pattern replacement : List Char) : List Char → List Char
  | [] => []
  | a :: s =>
    if !pattern.isEmpty && charsStartWith (a :: s) pattern then
      replacement ++ (a :: s).drop pattern.length
    else a :: replaceFirstChars pattern replacement s

def jsReplaceFirst (s pattern replacement : String) : String :=
  String.mk (replaceFirstChars pattern.data replacement.data s.data)

/-- The leading-digits parse of `parseInt(s, 10)`; `none` models `NaN`. -/
def parseLeadingDigits (acc : Nat) (found : Bool) : List Char → Option Nat
  | [] => if found then some acc else none
  | c :: rest =>
    if c.isDigit then parseLeadingDigits (acc * 10 + (c.toNat - 48)) true rest
    else if found then some acc else none

/-- `parseInt(s, 10)` with 0 standing in for `NaN` (unreachable for the
`song-NNN` ids produced by `mapSongResponse`). -/
def jsParseIntOr0 (s : String) : Nat :=
  (parseLeadingDigits 0 false s.data).getD 0

/-- `isSongUsed(song)`: parses the slot index back out of the song id
(`parseInt(song.id.replace("song-", ""), 10)`) and checks
synthesized-name, attached-macro and tempo defaultness. -/
def isSongUsed (song : Song) : Bool :=
  let index := jsParseIntOr0 (jsReplaceFirst song.id "song-" "")
  let hasDifferentName := song.title != defaultSongName index
  let hasMacros := song.macros.length != 0
  let hasTempoChange := song.tempo != DEFAULT_SONG_BPM
  hasDifferentName || hasMacros || hasTempoChange

/-- `true` exactly on responses that resolved with `status: "success"`
(the `isHttpSuccess(r) && r.status === "success"` test). -/
def isSuccessResp (r : SimResp SongDetailsResponse) : Bool :=
  match r with
  | .ok response => response.status == some "success"
  | .throw _ => false

/-- The song scan loop of `importSongsFromPedal` (and the identical loop in
`importProjectFromPedal`) over simulated responses: each iteration queries
the slot (recorded in the returned visited-index list), skips unsuccessful
slots without touching the consecutive-defaults counter, keeps used songs
and resets the counter, and in configured-only mode stops as soon as 5
consecutive defaults have been seen; in import-all mode defaults are kept
and nothing stops the scan. -/
def importSongsGo (importAll : Bool) :
    Nat → Nat → List (SimResp SongDetailsResponse) → List Song × List Nat
  | _, _, [] => ([], [])
  | index, consecutiveDefaults, r :: rest =>
    match r with
    | .throw _ =>
      let rec1 := importSongsGo importAll (index + 1) consecutiveDefaults rest
      (rec1.1, index :: rec1.2)
    | .ok response =>
      if response.status = some "success" then
        let song := mapSongResponse response index
        if isSongUsed song then
          let rec1 := importSongsGo importAll (index + 1) 0 rest
          (song :: rec1.1, index :: rec1.2)
        else if !importAll then
          if 5 ≤ consecutiveDefaults + 1 then ([], [index])
          else
            let rec1 := importSongsGo importAll (index + 1) (consecutiveDefaults + 1) rest
            (rec1.1, index :: rec1.2)
        else
          let rec1 := importSongsGo importAll (index + 1) consecutiveDefaults rest
          (song :: rec1.1, index :: rec1.2)
      else
        let rec1 := importSongsGo importAll (index + 1) consecutiveDefaults rest
        (rec1.1, index :: rec1.2)

/-- `importSongsFromPedal(importAll)` over a simulated pedal: slots are
visited in ascending order from 0, up to `SONG_SLOT_COUNT`. -/
def importSongsSim (importAll : Bool)
    (responses : List (SimResp SongDetailsResponse)) : List Song × List Nat :=
  importSongsGo importAll 0 0 (responses.take SONG_SLOT_COUNT)

/-- The simulated 10-slot song sequence of the claim's scenario: slots
0–2 configured (custom title, custom tempo, attached macro respectively),
slots 3–7 default, slot 8 configured, slot 9 default. -/
def demoSongResponses : List (SimResp SongDetailsResponse) :=
  [.ok ⟨some "success", some "Opener", some 120, none, none⟩,
   .ok ⟨some "success", some "Second", none, none, none⟩,
   .ok ⟨some "success", some "Third", none, none, some 5⟩,
   .ok ⟨some "success", none, none, none, none⟩,
   .ok ⟨some "success", none, none, none, none⟩,
   .ok ⟨some "success", none, none, none, none⟩,
   .ok ⟨some "success", none, none, none, none⟩,
   .ok ⟨some "success", none, none, none, none⟩,
   .ok ⟨some "success", some "Late", none, none, none⟩,
   .ok ⟨some "success", none, none, none, none⟩]

/-! ### Macro scan -/

structure MidiStepResponseFields where
  status : Option String
  type : Option String
  midiCh : Option Int
  num : Option Int
  val : Option Int
deriving DecidableEq

structure MacroNameResponse where
  status : Option String
  name : Option String
deriving DecidableEq

structure MacroMapResponse where
  status : Option String
  activeSlots : List Nat
deriving DecidableEq

/-- One simulated macro slot: the `get_macro_name` response, the
`get_macro_map` response, and the `get_macro_cmd` response per step slot. -/
structure MacroSlotSim where
  nameResp : SimResp MacroNameResponse
  mapResp : SimResp MacroMapResponse
  commandResp : Nat → SimResp MidiStepResponseFields

/-- `Math.max(0, Math.min(127, Math.round(value)))` on an integer. -/
def clampByte (value : Int) : Nat := (max 0 (min 127 value)).toNat

/-- `clampChannel`: clamp into 1–16 (the rounding is the identity on
integers; non-finite inputs cannot arise in the model). -/
def clampChannel (value : Int) : Nat := (max 1 (min 16 value)).toNat

/-- `mapMidiCommand(response, macroIndex, slot)`. -/
def mapMidiCommand (response : MidiStepResponseFields) (macroIndex slot : Nat) :
    Option MidiStep :=
  let type := (response.type.getD "").toUpper
  let channel := clampChannel (response.midiCh.getD 1)
  if type = "CC" then
    some (.cc (padStartZeros 3 macroIndex ++ "-cc-" ++ padStartZeros 2 slot)
      (clampByte (response.num.getD 0)) (clampByte (response.val.getD 0)) channel)
  else if type = "PC" then
    some (.pc (padStartZeros 3 macroIndex ++ "-pc-" ++ padStartZeros 2 slot)
      (clampByte (response.num.getD 0)) channel)
  else none

/-- The inner `for (const slot of activeSlots)` step-fetch loop: a thrown
or unsuccessful command query is skipped (with a warning), a successful one
contributes its mapped step when the type is recognised. -/
def collectMacroSteps (sim : MacroSlotSim) (index : Nat) :
    List Nat → List MidiStep
  | [] => []
  | slot :: rest =>
    match sim.commandResp slot with
    | .throw _ => collectMacroSteps sim index rest
    | .ok response =>
      if response.status = some "success" then
        match mapMidiCommand response index slot with
        | some step => step :: collectMacroSteps sim index rest
        | none => collectMacroSteps sim index rest
      else collectMacroSteps sim index rest

/-- `mapMacroResponse(response, index, steps)`. -/
def mapMacroResponse (response : MacroNameResponse) (index : Nat)
    (steps : List MidiStep) : MidiMacroDef :=
  ⟨"macro-" ++ padStartZeros 3 index,
   (match response.name with
    | some n => if 0 < n.length then n else defaultMacroName index
    | none => defaultMacroName index),
   steps⟩

/-- One iteration body of the macro scan: `none` when the name or map query
throws or is unsuccessful (the slot is skipped without touching the
counter), otherwise the mapped macro with its fetched steps. -/
def processMacroSlot (sim : MacroSlotSim) (index : Nat) : Option MidiMacroDef :=
  match sim.nameResp with
  | .throw _ => none
  | .ok nameResponse =>
    if nameResponse.status = some "success" then
      match sim.mapResp with
      | .throw _ => none
      | .ok mapResponse =>
        if mapResponse.status = some "success" then
          some (mapMacroResponse nameResponse index
            (collectMacroSteps sim index mapResponse.activeSlots))
        else none
    else none

/-- The macro scan loop of `importMacrosFromPedal` (threshold 5). -/
def importMacrosGo (importAll : Bool) :
    Nat → Nat → List MacroSlotSim → List MidiMacroDef × List Nat
  | _, _, [] => ([], [])
  | index, consecutiveDefaults, sim :: rest =>
    match processMacroSlot sim index with
    | none =>
      let rec1 := importMacrosGo importAll (index + 1) consecutiveDefaults rest
      (rec1.1, index :: rec1.2)
    | some m =>
      let isDefault := m.steps.isEmpty && isDefaultMacroName m.name index
      if !isDefault then
        let rec1 := importMacrosGo importAll (index + 1) 0 rest
        (m :: rec1.1, index :: rec1.2)
      else if !importAll then
        if 5 ≤ consecutiveDefaults + 1 then ([], [index])
        else
          let rec1 := importMacrosGo importAll (index + 1) (consecutiveDefaults + 1) rest
          (rec1.1, index :: rec1.2)
      else
        let rec1 := importMacrosGo importAll (index + 1) consecutiveDefaults rest
        (m :: rec1.1, index :: rec1.2)

/-- A macro slot reads back as default at `index`: name and map queries
succeed, no steps resolve, and the name is the synthesized default. -/
def macroSlotIsDefault (sim : MacroSlotSim) (index : Nat) : Prop :=
  ∃ m, processMacroSlot sim index = some m ∧
    (m.steps.isEmpty && isDefaultMacroName m.name index) = true

/-! ### Setlist scan -/

structure SetlistNameResponse where
  status : Option String
  name : Option String
deriving DecidableEq

structure SetlistSongsResponse where
  status : Option String
  songs : Option (List Int)
deriving DecidableEq

/-- One simulated setlist slot: the `get_setlist_name` response, the
per-section `get_setlist_songs_sect` responses, and the legacy
`get_setlist_songs` response. -/
structure SetlistSlotSim where
  nameResp : SimResp SetlistNameResponse
  sectionResp : Nat → SimResp SetlistSongsResponse
  legacyResp : SimResp SetlistSongsResponse

structure SetlistEntry where
  id : String
  songId : String
deriving DecidableEq

structure Setlist where
  id : String
  name : String
  entries : List SetlistEntry
deriving DecidableEq

/-- Field-by-field numeric version comparison, missing trailing fields
read as zero (`isVersionAtLeast`). -/
def versionFieldsGE : List Nat → List Nat → Bool
  | [], [] => true
  | [], t :: ts => if 0 < t then false else versionFieldsGE [] ts
  | c :: cs, [] => if 0 < c then true else versionFieldsGE cs []
  | c :: cs, t :: ts =>
    if t < c then true
    else if c < t then false
    else versionFieldsGE cs ts

/-- `isVersionAtLeast(current, target)`: split on dots, parse each field
(`parseInt(part, 10) || 0`), compare numerically field by field. -/
def isVersionAtLeast (current target : String) : Bool :=
  let parse := fun (s : String) =>
    (s.splitOn ".").map (fun part => (parseLeadingDigits 0 false part.data).getD 0)
  versionFieldsGE (parse current) (parse target)

/-- The section-query loop of `loadSetlistSongs` (sections 1 to
`SETLIST_SECTION_COUNT`); thrown or unsuccessful sections contribute
nothing. -/
def collectSetlistSections (sim : SetlistSlotSim) : List Nat → List Int
  | [] => []
  | section1 :: rest =>
    (match sim.sectionResp section1 with
     | .throw _ => []
     | .ok response =>
       if response.status = some "success" then
         match response.songs with
         | some songs => songs
         | none => []
       else []) ++ collectSetlistSections sim rest

/-- `loadSetlistSongs(bridge, setlistIndex, firmwareVersion)`: firmware
`≥ 1.0.2` reads the fixed-size sections and concatenates them; otherwise a
single legacy whole-list query is used. -/
def loadSetlistSongs (sim : SetlistSlotSim) (firmwareVersion : Option String) :
    List Int :=
  match firmwareVersion with
  | some version =>
    if isVersionAtLeast version "1.0.2" then
      collectSetlistSections sim ((List.range SETLIST_SECTION_COUNT).map (· + 1))
    else
      match sim.legacyResp with
      | .throw _ => []
      | .ok response =>
        if response.status = some "success" then response.songs.getD [] else []
  | none =>
    match sim.legacyResp with
    | .throw _ => []
    | .ok response =>
      if response.status = some "success" then response.songs.getD [] else []

/-- `mapSetlistResponse(response, index, songIds)`. -/
def mapSetlistResponse (response : SetlistNameResponse) (index : Nat)
    (songIds : List Int) : Setlist :=
  let id := "setlist-" ++ padStartZeros 2 index
  let name :=
    match response.name with
    | some n => if 0 < n.length then n else defaultSetlistName index
    | none => defaultSetlistName index
  let entries := songIds.enum.map (fun p =>
    SetlistEntry.mk (id ++ "-entry-" ++ padStartZeroStr 3 (toString p.1))
      ("song-" ++ padStartZeroStr 3 (toString p.2)))
  ⟨id, name, entries⟩

/-- One iteration body of the setlist scan: `none` when the name query
throws or is unsuccessful, otherwise the mapped setlist with its loaded
song entries. -/
def processSetlistSlot (sim : SetlistSlotSim) (firmwareVersion : Option String)
    (index : Nat) : Option Setlist :=
  match sim.nameResp with
  | .throw _ => none
  | .ok nameResponse =>
    if nameResponse.status = some "success" then
      some (mapSetlistResponse nameResponse index (loadSetlistSongs sim firmwareVersion))
    else none

/-- The setlist scan loop of `importSetlistsFromPedal` (threshold 3). -/
def importSetlistsGo (firmwareVersion : Option String) (importAll : Bool) :
    Nat → Nat → List SetlistSlotSim → List Setlist × List Nat
  | _, _, [] => ([], [])
  | index, consecutiveDefaults, sim :: rest =>
    match processSetlistSlot sim firmwareVersion index with
    | none =>
      let rec1 := importSetlistsGo firmwareVersion importAll (index + 1) consecutiveDefaults rest
      (rec1.1, index :: rec1.2)
    | some setlist =>
      let isDefault := setlist.entries.isEmpty && isDefaultSetlistName setlist.name index
      if !isDefault then
        let rec1 := importSetlistsGo firmwareVersion importAll (index + 1) 0 rest
        (setlist :: rec1.1, index :: rec1.2)
      else if !importAll then
        if 3 ≤ consecutiveDefaults + 1 then ([], [index])
        else
          let rec1 := importSetlistsGo firmwareVersion importAll (index + 1)
            (consecutiveDefaults + 1) rest
          (rec1.1, index :: rec1.2)
      else
        let rec1 := importSetlistsGo firmwareVersion importAll (index + 1) consecutiveDefaults rest
        (setlist :: rec1.1, index :: rec1.2)

/-- A setlist slot reads back as default at `index`. -/
def setlistSlotIsDefault (sim : SetlistSlotSim) (firmwareVersion : Option String)
    (index : Nat) : Prop :=
  ∃ s, processSetlistSlot sim firmwareVersion index = some s ∧
    (s.entries.isEmpty && isDefaultSetlistName s.name index) = true

/-- Five consecutive default songs (counter starting at 0) stop the
configured-only scan right after the fifth: only those five slots are
visited and nothing is imported or queried beyond them. -/
theorem songs_stop_after_five (idx : Nat) (r0 r1 r2 r3 r4 : SongDetailsResponse)
    (rest : List (SimResp SongDetailsResponse))
    (h0 : r0.status = some "success") (hu0 : isSongUsed (mapSongResponse r0 idx) = false)
    (h1 : r1.status = some "success")
    (hu1 : isSongUsed (mapSongResponse r1 (idx + 1)) = false)
    (h2 : r2.status = some "success")
    (hu2 : isSongUsed (mapSongResponse r2 (idx + 2)) = false)
    (h3 : r3.status = some "success")
    (hu3 : isSongUsed (mapSongResponse r3 (idx + 3)) = false)
    (h4 : r4.status = some "success")
    (hu4 : isSongUsed (mapSongResponse r4 (idx + 4)) = false) :
    importSongsGo false idx 0 (.ok r0 :: .ok r1 :: .ok r2 :: .ok r3 :: .ok r4 :: rest) =
      ([], [idx, idx + 1, idx + 2, idx + 3, idx + 4]) := by
  have e2 : idx + 1 + 1 = idx + 2 := by omega
  have e3 : idx + 1 + 1 + 1 = idx + 3 := by omega
  have e4 : idx + 1 + 1 + 1 + 1 = idx + 4 := by omega
  simp [importSongsGo, h0, hu0, h1, hu1, h2, hu2, h3, hu3, h4, hu4, e2, e3, e4]

/-- A used (non-default) song resets the consecutive-defaults counter and
is kept, in both modes. -/
theorem songs_reset_on_used (importAll : Bool) (idx c : Nat)
    (r : SongDetailsResponse) (rest : List (SimResp SongDetailsResponse))
    (hs : r.status = some "success")
    (hu : isSongUsed (mapSongResponse r idx) = true) :
    importSongsGo importAll idx c (.ok r :: rest) =
      (mapSongResponse r idx :: (importSongsGo importAll (idx + 1) 0 rest).1,
       idx :: (importSongsGo importAll (idx + 1) 0 rest).2) := by
  simp [importSongsGo, hs, hu]

/-- In import-all mode every slot is visited. -/
theorem songs_importAll_visits_all (rs : List (SimResp SongDetailsResponse)) :
    ∀ (idx c : Nat), (importSongsGo true idx c rs).2 = List.range' idx rs.length := by
  induction rs with
  | nil => intro idx c; simp [importSongsGo, List.range']
  | cons r rest ih =>
    intro idx c
    cases r with
    | throw m => simp [importSongsGo, List.range'_succ, ih]
    | ok response =>
      simp only [importSongsGo, List.length_cons, List.range'_succ]
      split_ifs <;> simp_all [ih]

/-- In import-all mode every successfully read slot is kept. -/
theorem songs_importAll_keeps_all (rs : List (SimResp SongDetailsResponse)) :
    ∀ (idx c : Nat),
      (importSongsGo true idx c rs).1.length = rs.countP isSuccessResp := by
  induction rs with
  | nil => intro idx c; simp [importSongsGo]
  | cons r rest ih =>
    intro idx c
    cases r with
    | throw m => simp [importSongsGo, List.countP_cons, isSuccessResp, ih]
    | ok response =>
      by_cases hs : response.status = some "success"
      · have hc : isSuccessResp (.ok response) = true := by
          simp [isSuccessResp, hs]
        simp only [importSongsGo, if_pos hs]
        split_ifs <;> simp_all [List.countP_cons, hc, ih]
      · have hc : isSuccessResp (.ok response) = false := by
          simp [isSuccessResp, hs]
        simp [importSongsGo, if_neg hs, List.countP_cons, hc, ih]

/-- Five consecutive default macro slots stop the configured-only macro
scan right after the fifth. -/
theorem macros_stop_after_five (idx : Nat) (s0 s1 s2 s3 s4 : MacroSlotSim)
    (rest : List MacroSlotSim)
    (h0 : macroSlotIsDefault s0 idx) (h1 : macroSlotIsDefault s1 (idx + 1))
    (h2 : macroSlotIsDefault s2 (idx + 2)) (h3 : macroSlotIsDefault s3 (idx + 3))
    (h4 : macroSlotIsDefault s4 (idx + 4)) :
    importMacrosGo false idx 0 (s0 :: s1 :: s2 :: s3 :: s4 :: rest) =
      ([], [idx, idx + 1, idx + 2, idx + 3, idx + 4]) := by
  obtain ⟨m0, hp0, hd0⟩ := h0
  obtain ⟨m1, hp1, hd1⟩ := h1
  obtain ⟨m2, hp2, hd2⟩ := h2
  obtain ⟨m3, hp3, hd3⟩ := h3
  obtain ⟨m4, hp4, hd4⟩ := h4
  have e2 : idx + 1 + 1 = idx + 2 := by omega
  have e3 : idx + 1 + 1 + 1 = idx + 3 := by omega
  have e4 : idx + 1 + 1 + 1 + 1 = idx + 4 := by omega
  simp [importMacrosGo, hp0, hd0, hp1, hd1, hp2, hd2, hp3, hd3, hp4, hd4, e2, e3, e4]

/-- Three consecutive default setlist slots stop the configured-only
setlist scan right after the third. -/
theorem setlists_stop_after_three (firmwareVersion : Option String) (idx : Nat)
    (s0 s1 s2 : SetlistSlotSim) (rest : List SetlistSlotSim)
    (h0 : setlistSlotIsDefault s0 firmwareVersion idx)
    (h1 : setlistSlotIsDefault s1 firmwareVersion (idx + 1))
    (h2 : setlistSlotIsDefault s2 firmwareVersion (idx + 2)) :
    importSetlistsGo firmwareVersion false idx 0 (s0 :: s1 :: s2 :: rest) =
      ([], [idx, idx + 1, idx + 2]) := by
  obtain ⟨t0, hp0, hd0⟩ := h0
  obtain ⟨t1, hp1, hd1⟩ := h1
  obtain ⟨t2, hp2, hd2⟩ := h2
  have e2 : idx + 1 + 1 = idx + 2 := by omega
  simp [importSetlistsGo, hp0, hd0, hp1, hd1, hp2, hd2, e2]

/-! ## Claim C2 — default-stop heuristic -/

/-- C2: (a) on the claim's 10-slot scenario (slots 3–7 default, slot 8
configured) the configured-only song scan visits exactly slots 0–7 —
stopping after the fifth consecutive default and never querying slot 8 —
and keeps the three configured songs, while the import-all scan visits all
10 slots and keeps all 10; concretely, slot 3 reads back with the
synthesized title `Song 4`, no attached macro and the default 80 BPM and
counts as default, while slot 0 is used.  In general: (b) five consecutive
default songs stop the configured-only scan with no further slot queried,
(c) any used (non-default) song resets the counter and is kept, (d)–(e) an
import-all scan queries every slot and keeps every successfully read one,
(f) five consecutive default macros stop the configured-only macro scan,
and (g) three consecutive default setlists stop the setlist scan. -/
theorem scanner_default_stop :
    ((importSongsSim false demoSongResponses).2 = [0, 1, 2, 3, 4, 5, 6, 7] ∧
     8 ∉ (importSongsSim false demoSongResponses).2 ∧
     (importSongsSim false demoSongResponses).1.map Song.id =
       ["song-000", "song-001", "song-002"] ∧
     (importSongsSim true demoSongResponses).2 = [0, 1, 2, 3, 4, 5, 6, 7, 8, 9] ∧
     (importSongsSim true demoSongResponses).1.length = 10 ∧
     (mapSongResponse ⟨some "success", none, none, none, none⟩ 3).title = "Song 4" ∧
     (mapSongResponse ⟨some "success", none, none, none, none⟩ 3).macros = [] ∧
     (mapSongResponse ⟨some "success", none, none, none, none⟩ 3).tempo = 80 ∧
     isSongUsed (mapSongResponse ⟨some "success", none, none, none, none⟩ 3) = false ∧
     isSongUsed (mapSongResponse ⟨some "success", some "Opener", some 120, none, none⟩ 0)
       = true) ∧
    (∀ (idx : Nat) (r0 r1 r2 r3 r4 : SongDetailsResponse)
       (rest : List (SimResp SongDetailsResponse)),
      r0.status = some "success" → isSongUsed (mapSongResponse r0 idx) = false →
      r1.status = some "success" → isSongUsed (mapSongResponse r1 (idx + 1)) = false →
      r2.status = some "success" → isSongUsed (mapSongResponse r2 (idx + 2)) = false →
      r3.status = some "success" → isSongUsed (mapSongResponse r3 (idx + 3)) = false →
      r4.status = some "success" → isSongUsed (mapSongResponse r4 (idx + 4)) = false →
      importSongsGo false idx 0
          (.ok r0 :: .ok r1 :: .ok r2 :: .ok r3 :: .ok r4 :: rest) =
        ([], [idx, idx + 1, idx + 2, idx + 3, idx + 4])) ∧
    (∀ (importAll : Bool) (idx c : Nat) (r : SongDetailsResponse)
       (rest : List (SimResp SongDetailsResponse)),
      r.status = some "success" → isSongUsed (mapSongResponse r idx) = true →
      importSongsGo importAll idx c (.ok r :: rest) =
        (mapSongResponse r idx :: (importSongsGo importAll (idx + 1) 0 rest).1,
         idx :: (importSongsGo importAll (idx + 1) 0 rest).2)) ∧
    (∀ (rs : List (SimResp SongDetailsResponse)) (idx c : Nat),
      (importSongsGo true idx c rs).2 = List.range' idx rs.length) ∧
    (∀ (rs : List (SimResp SongDetailsResponse)) (idx c : Nat),
      (importSongsGo true idx c rs).1.length = rs.countP isSuccessResp) ∧
    (∀ (idx : Nat) (s0 s1 s2 s3 s4 : MacroSlotSim) (rest : List MacroSlotSim),
      macroSlotIsDefault s0 idx → macroSlotIsDefault s1 (idx + 1) →
      macroSlotIsDefault s2 (idx + 2) → macroSlotIsDefault s3 (idx + 3) →
      macroSlotIsDefault s4 (idx + 4) →
      importMacrosGo false idx 0 (s0 :: s1 :: s2 :: s3 :: s4 :: rest) =
        ([], [idx, idx + 1, idx + 2, idx + 3, idx + 4])) ∧
    (∀ (firmwareVersion : Option String) (idx : Nat) (s0 s1 s2 : SetlistSlotSim)
       (rest : List SetlistSlotSim),
      setlistSlotIsDefault s0 firmwareVersion idx →
      setlistSlotIsDefault s1 firmwareVersion (idx + 1) →
      setlistSlotIsDefault s2 firmwareVersion (idx + 2) →
      importSetlistsGo firmwareVersion false idx 0 (s0 :: s1 :: s2 :: rest) =
        ([], [idx, idx + 1, idx + 2])) := by
  refine ⟨⟨?_, ?_, ?_, ?_, ?_, ?_, ?_, ?_, ?_, ?_⟩, ?_, ?_, ?_, ?_, ?_, ?_⟩
  · decide
  · decide
  · decide
  · decide
  · decide
  · decide
  · decide
  · decide
  · decide
  · decide
  · intro idx r0 r1 r2 r3 r4 rest h0 hu0 h1 hu1 h2 hu2 h3 hu3 h4 hu4
    exact songs_stop_after_five idx r0 r1 r2 r3 r4 rest h0 hu0 h1 hu1 h2 hu2 h3 hu3 h4 hu4
  · intro importAll idx c r rest hs hu
    exact songs_reset_on_used importAll idx c r rest hs hu
  · intro rs idx c
    exact songs_importAll_visits_all rs idx c
  · intro rs idx c
    exact songs_importAll_keeps_all rs idx c
  · intro idx s0 s1 s2 s3 s4 rest h0 h1 h2 h3 h4
    exact macros_stop_after_five idx s0 s1 s2 s3 s4 rest h0 h1 h2 h3 h4
  · intro firmwareVersion idx s0 s1 s2 rest h0 h1 h2
    exact setlists_stop_after_three firmwareVersion idx s0 s1 s2 rest h0 h1 h2

/-- A simulated macro slot that reads back entirely default. -/
def demoDefaultMacroSlot : MacroSlotSim :=
  ⟨.ok ⟨some "success", none⟩, .ok ⟨some "success", []⟩, fun _ => .throw "unused"⟩

/-- A simulated setlist slot that reads back entirely default (legacy
firmware path). -/
def demoDefaultSetlistSlot : SetlistSlotSim :=
  ⟨.ok ⟨some "success", none⟩, fun _ => .throw "unused", .ok ⟨some "success", some []⟩⟩

/-- C2 witness: the general conjuncts applied at concrete inputs — five
default song responses from slot 0 stop the scan at slot 4; a used song
resets the counter; five default macro slots and three default setlist
slots stop their scans. -/
theorem scanner_default_stop_witness :
    importSongsGo false 0 0
        (List.replicate 5 (.ok ⟨some "success", none, none, none, none⟩)) =
      ([], [0, 1, 2, 3, 4]) ∧
    importSongsGo false 7 3 [.ok ⟨some "success", some "Live", none, none, none⟩] =
      ([mapSongResponse ⟨some "success", some "Live", none, none, none⟩ 7], [7]) ∧
    importMacrosGo false 0 0 (List.replicate 5 demoDefaultMacroSlot) =
      ([], [0, 1, 2, 3, 4]) ∧
    importSetlistsGo none false 0 0 (List.replicate 3 demoDefaultSetlistSlot) =
      ([], [0, 1, 2]) := by
  have h := scanner_default_stop
  refine ⟨?_, ?_, ?_, ?_⟩
  · exact h.2.1 0 _ _ _ _ _ [] (by decide) (by decide) (by decide) (by decide) (by decide)
      (by decide) (by decide) (by decide) (by decide) (by decide)
  · have := h.2.2.1 false 7 3 ⟨some "success", some "Live", none, none, none⟩ []
      (by decide) (by decide)
    simpa [importSongsGo] using this
  · exact h.2.2.2.2.2.1 0 _ _ _ _ _ []
      ⟨_, rfl, by decide⟩ ⟨_, rfl, by decide⟩ ⟨_, rfl, by decide⟩
      ⟨_, rfl, by decide⟩ ⟨_, rfl, by decide⟩
  · exact h.2.2.2.2.2.2 none 0 _ _ _ []
      ⟨_, rfl, by decide⟩ ⟨_, rfl, by decide⟩ ⟨_, rfl, by decide⟩

end Clock
